import Mathlib

/-!
Shallow embedding of the authoritative game-state machine of the
vampires party game server (src/server/index.js, the second and live
declaration of the Game class, lines 598-1750, plus the socket event
handlers that mutate a session).

Conventions of the embedding:
* JavaScript objects keyed by player-id strings become association lists
  kept in insertion order, matching the iteration order of Object.keys
  and Object.values on string keys.
* The night-action ledger holds two kinds of keys: the actor's own id
  (the main key) and the actor's id suffixed by the frame marker, which
  the source writes as id + underscore-frame; these become the NightKey
  inductive.
* Socket emissions that carry no state (private result messages of the
  resolver, broadcasts, timer ticks) are not modeled except in the
  night-action handler, where claims depend on which player receives a
  rejection notice; there they become Notice values.
* Math.random choices (the vampire tie-break, shuffles) become explicit
  parameters: an index for the tie-break, a permutation-producing
  function for shuffles.
* JavaScript number comparisons on vote counts are exact rational
  comparisons at the sizes involved; the embedding states thresholds as
  the equivalent cross-multiplied natural-number comparisons and the
  theorems relate them to the rational forms.
-/

namespace Vampires

/-- The eight roles of the role catalog (roleAlignments map in the source). -/
inductive Role
  | Investigator
  | Lookout
  | Doctor
  | Citizen
  | Jailor
  | Vampire
  | VampireFramer
  | Jester
  deriving DecidableEq, Repr

/-- Alignment of a role: good, evil or neutral. -/
inductive Alignment
  | good
  | evil
  | neutral
  deriving DecidableEq, Repr

/-- The roleAlignments lookup table of the source (declared identically in
assignRoles and in the change-player-role handler). -/
def roleAlignments : Role → Alignment
  | .Investigator => .good
  | .Lookout => .good
  | .Doctor => .good
  | .Citizen => .good
  | .Jailor => .good
  | .Vampire => .evil
  | .VampireFramer => .evil
  | .Jester => .neutral

/-- The recurring source test role === Vampire or role === Vampire Framer. -/
def isVampireRole (r : Role) : Bool :=
  r == .Vampire || r == .VampireFramer

/-- A player of a session.  healsRemaining models the Doctor-only counter,
0 standing for the deleted field of non-doctors; socketId is none for a
disconnected player (a falsy socketId in the source suppresses emissions). -/
structure Player where
  id : Nat
  name : String
  role : Role
  alignment : Alignment
  alive : Bool
  isTurned : Bool := false
  healsRemaining : Nat := 0
  isNPC : Bool := false
  socketId : Option Nat := none
  deriving DecidableEq, Repr

/-- Night-action types handled by the night-action socket handler. -/
inductive ActionType
  | INVESTIGATE
  | LOOKOUT
  | HEAL
  | BITE
  | FRAME
  | JAIL
  | EXECUTE
  | CANCEL_EXECUTE
  deriving DecidableEq, Repr

/-- A stored ledger entry: the action spread together with actorId, as the
handler stores it. -/
structure Action where
  type : ActionType
  actorId : Nat
  targetId : Option Nat
  deriving DecidableEq, Repr

/-- Ledger keys: the actor's own id, or the separate frame key the source
builds by appending the frame suffix to the actor's id. -/
inductive NightKey
  | main (pid : Nat)
  | frame (pid : Nat)
  deriving DecidableEq, Repr

/-- The night-action ledger: an insertion-ordered association list, the
image of the JavaScript nightActions object. -/
abbrev Ledger := List (NightKey × Action)

/-- Lookup of a ledger key. -/
def ledgerGet (l : Ledger) (k : NightKey) : Option Action :=
  (l.find? (fun e => e.1 == k)).map (fun e => e.2)

/-- Insertion or overwrite of a ledger key, keeping the position of an
existing key (JavaScript object update semantics). -/
def ledgerSet (l : Ledger) (k : NightKey) (a : Action) : Ledger :=
  if (l.find? (fun e => e.1 == k)).isSome then
    l.map (fun e => if e.1 == k then (k, a) else e)
  else
    l ++ [(k, a)]

/-- Deletion of a ledger key. -/
def ledgerDel (l : Ledger) (k : NightKey) : Ledger :=
  l.filter (fun e => !(e.1 == k))

/-- Object.values of the ledger, in insertion order. -/
def ledgerValues (l : Ledger) : List Action :=
  l.map (fun e => e.2)

/-- Phases of the session state machine. -/
inductive Phase
  | LOBBY
  | NIGHT
  | DAY_DISCUSS
  | DAY_VOTE
  | GAME_OVER
  deriving DecidableEq, Repr

/-- A private socket emission: recipient player id paired with the message
kind.  Only the handler messages that claims inspect are distinguished. -/
inductive NoticeKind
  | cannotTurnFellowVampire
  | votedToTurn (voterId targetId : Nat)
  | cancelledVote (voterId : Nat)
  | noHealsRemaining
  | invalidJailTarget
  | cannotJailSelf
  | youJailedTarget (targetId : Nat)
  | youWereJailed
  | voteCancelledJailed (jailedId : Nat)
  | noPrisoner
  | decidedToExecute
  | jailorWillExecuteYou
  | executionCancelled
  | jailorSparedYou
  | jailedCannotAct
  | invalidFrameTarget
  | cannotFrameFellowVampire
  deriving DecidableEq, Repr

abbrev Notice := Nat × NoticeKind

/-- Emission guarded on the recipient having a socket, as io.to(socketId)
is in the source. -/
def emitIf (p : Player) (k : NoticeKind) : List Notice :=
  if p.socketId.isSome then [(p.id, k)] else []

/-- The whole mutable session state a claim touches.  Timer bookkeeping,
chat transcripts and collaborator handles are not modeled; revealRole is
the one settings field the resolvers read. -/
structure Game where
  players : List Player
  state : Phase
  round : Nat
  nightActions : Ledger
  votes : List (Nat × Nat)
  winner : Option String
  logs : List String
  jailedPlayerId : Option Nat
  jailorId : Option Nat
  jailorPendingDeath : Bool
  framedPlayers : List (Option Nat)
  revealRole : Bool
  deriving DecidableEq, Repr

/-- The source pattern players.find(p following id match) followed by a
mutation of the found object: apply f to the first player with the id. -/
def updateFirst (ps : List Player) (pid : Nat) (f : Player → Player) : List Player :=
  match ps with
  | [] => []
  | p :: rest => if p.id = pid then f p :: rest else p :: updateFirst rest pid f

/-- players.find by id. -/
def findPlayer (g : Game) (pid : Nat) : Option Player :=
  g.players.find? (fun p => p.id == pid)

/-- players.find by socket id. -/
def findBySocket (g : Game) (sockId : Nat) : Option Player :=
  g.players.find? (fun p => p.socketId == some sockId)

/-! Log lines pushed by the resolvers.  Only the lines whose presence or
absence a claim inspects are reproduced; their exact wording is abridged
but they are distinguished from one another as in the source. -/

def goodWinsLog : String := "The vampires have been eliminated! Good wins!"

def evilWinsLog : String := "The vampires have taken over! Evil wins!"

def unreachableTargetLog (round : Nat) : String :=
  "[Night " ++ toString round ++ "] The vampires tried to attack, but their target was unreachable!"

def savedByDoctorLog (round : Nat) : String :=
  "[Night " ++ toString round ++ "] The vampires tried to attack, but their target was saved by a doctor!"

def darkRitualLog (round : Nat) : String :=
  "[Night " ++ toString round ++ "] A dark ritual took place... someone's nature has changed."

def executedLog (round : Nat) (name : String) : String :=
  "[Night " ++ toString round ++ "] " ++ name ++ " was executed by the Jailor."

def guiltDeathLog (round : Nat) (name : String) : String :=
  "[Day " ++ toString round ++ "] " ++ name ++ " was consumed by guilt and died!"

def lynchedLog (round : Nat) (name : String) : String :=
  "[Day " ++ toString round ++ "] " ++ name ++ " was lynched!"

def jesterWinsLog (round : Nat) : String :=
  "[Day " ++ toString round ++ "] The Jester was lynched! Jester Wins!"

def revealRoleLog (round : Nat) (name : String) (r : Role) : String :=
  "[Day " ++ toString round ++ "] " ++ name ++ " was a " ++ toString (repr r)

def noLynchLog (round : Nat) : String :=
  "[Day " ++ toString round ++ "] No one received enough votes."

/-- The living players of a session. -/
def livingPlayers (g : Game) : List Player :=
  g.players.filter (fun p => p.alive)

/-- The living evil-aligned players of a session. -/
def evilLiving (g : Game) : List Player :=
  (livingPlayers g).filter (fun p => p.alignment == .evil)

/-- Game.checkWinCondition.  The source compares vamps.length against
living.length / 2 with exact number division; at these magnitudes that is
the rational comparison, embedded as living less-or-equal 2 * vamps. -/
def checkWinCondition (g : Game) : Game :=
  let living := livingPlayers g
  let vamps := evilLiving g
  if vamps.length = 0 then
    { g with state := .GAME_OVER, winner := some "GOOD", logs := g.logs ++ [goodWinsLog] }
  else if living.length ≤ 2 * vamps.length then
    { g with state := .GAME_OVER, winner := some "EVIL", logs := g.logs ++ [evilWinsLog] }
  else
    g

/-- Game.startNight: bump the round, clear ledger, votes, jail state and
the framed set (jail chat and vampire chat are not modeled). -/
def startNight (g : Game) : Game :=
  { g with state := .NIGHT, round := g.round + 1, nightActions := [], votes := [],
           jailedPlayerId := none, jailorId := none, framedPlayers := [] }

/-- Game.startDayDiscuss: resolve the pending guilt death of the jailor,
then clear the jail state. -/
def startDayDiscuss (g : Game) : Game :=
  let g0 := { g with state := Phase.DAY_DISCUSS }
  let g1 :=
    if g0.jailorPendingDeath then
      match g0.jailorId with
      | some jid =>
        match findPlayer g0 jid with
        | some jailor =>
          if jailor.alive then
            { g0 with players := updateFirst g0.players jid (fun p => { p with alive := false }),
                      logs := g0.logs ++ [guiltDeathLog g0.round jailor.name],
                      jailorPendingDeath := false }
          else
            { g0 with jailorPendingDeath := false }
        | none => { g0 with jailorPendingDeath := false }
      | none => { g0 with jailorPendingDeath := false }
    else g0
  { g1 with jailedPlayerId := none, jailorId := none }

/-! The night resolver, Game.resolveNight, split into its numbered steps.
Steps that only emit private result messages (visit records consumed by
LOOKOUT, investigation results, all notification emissions) carry no
session state and are not modeled. -/

/-- Step 1 extract: the doctorHeals list, one record per HEAL-typed ledger
entry, in ledger order. -/
def doctorHealsOf (l : Ledger) : List (Nat × Option Nat) :=
  (ledgerValues l).filterMap (fun a => if a.type = .HEAL then some (a.actorId, a.targetId) else none)

/-- Step 2: consume one heal per doctorHeals record, guarded on the found
player still being a Doctor with a positive counter. -/
def consumeHeals (ps : List Player) (hs : List (Nat × Option Nat)) : List Player :=
  hs.foldl
    (fun acc h =>
      updateFirst acc h.1
        (fun p => if p.role = .Doctor ∧ p.healsRemaining > 0 then
                    { p with healsRemaining := p.healsRemaining - 1 }
                  else p))
    ps

/-- Step 3 extract: the BITE-typed ledger entries. -/
def biteActions (l : Ledger) : List Action :=
  (ledgerValues l).filter (fun a => a.type == .BITE)

/-- Occurrence-ordered tally: bump the count of a key, appending new keys,
mirroring voteCount building over an object. -/
def bumpCount (acc : List (Option Nat × Nat)) (t : Option Nat) : List (Option Nat × Nat) :=
  match acc with
  | [] => [(t, 1)]
  | (t', c) :: rest => if t' = t then (t', c + 1) :: rest else (t', c) :: bumpCount rest t

/-- The per-target bite vote counts, keyed by targetId in order of first
appearance (Object.keys order). -/
def biteVoteCounts (l : Ledger) : List (Option Nat × Nat) :=
  (biteActions l).foldl (fun acc a => bumpCount acc a.targetId) []

/-- The maximum bite-vote count. -/
def maxBiteVotes (l : Ledger) : Nat :=
  (biteVoteCounts l).foldl (fun m e => max m e.2) 0

/-- The targets holding the maximum bite-vote count, in key order. -/
def topBiteTargets (l : Ledger) : List (Option Nat) :=
  ((biteVoteCounts l).filter (fun e => e.2 == maxBiteVotes l)).map (fun e => e.1)

/-- The tie-break choice: the source indexes topTargets at a random index;
the embedding takes the index as the pick parameter, reduced modulo the
list length. -/
def chosenBiteTarget (l : Ledger) (pick : Nat) : Option Nat :=
  ((topBiteTargets l).get? (pick % (topBiteTargets l).length)).getD none

/-- Step 3: the vampire turn, executed only when round % 2 = 0 and at
least one BITE entry exists. -/
def vampireTurnStep (g : Game) (pick : Nat) : Game :=
  if g.round % 2 = 0 then
    if (biteActions g.nightActions).length > 0 then
      match chosenBiteTarget g.nightActions pick with
      | none => g
      | some tid =>
        match findPlayer g tid with
        | none => g
        | some target =>
          if target.alive ∧ ¬ isVampireRole target.role then
            let isJailed := g.jailedPlayerId = some tid
            let isHealed := (doctorHealsOf g.nightActions).any (fun h => h.2 == some tid)
            if isJailed then
              { g with logs := g.logs ++ [unreachableTargetLog g.round] }
            else if isHealed then
              { g with logs := g.logs ++ [savedByDoctorLog g.round] }
            else
              { g with players := updateFirst g.players tid
                          (fun p => { p with role := .Vampire, alignment := .evil, isTurned := true }),
                       logs := g.logs ++ [darkRitualLog g.round] }
          else g
    else g
  else g

/-- Step 4: each FRAME entry whose actor is a living Vampire Framer adds
its target to the framed set. -/
def frameStep (g : Game) : Game :=
  let framed := (ledgerValues g.nightActions).foldl
    (fun acc a =>
      if a.type = .FRAME then
        match findPlayer g a.actorId with
        | some actor =>
          if actor.role = .VampireFramer ∧ actor.alive then
            if acc.contains a.targetId then acc else acc ++ [a.targetId]
          else acc
        | none => acc
      else acc)
    g.framedPlayers
  { g with framedPlayers := framed }

/-- Step 7: the jailor execution.  When a jail is active and the jailor's
own ledger entry is an EXECUTE, the living prisoner dies; executing a
good-aligned prisoner flags the pending guilt death. -/
def jailExecuteStep (g : Game) : Game :=
  match g.jailedPlayerId, g.jailorId with
  | some jpid, some jorid =>
    let jailAction := ledgerGet g.nightActions (.main jorid)
    (match findPlayer g jpid with
     | some prisoner =>
       if (jailAction.map (fun a => a.type)) = some .EXECUTE ∧ prisoner.alive then
         let g' := { g with players := updateFirst g.players jpid (fun p => { p with alive := false }),
                            logs := g.logs ++ [executedLog g.round prisoner.name] }
         if prisoner.alignment = .good then { g' with jailorPendingDeath := true } else g'
       else g
     | none => g)
  | _, _ => g

/-- The session after step 2, the heal consumption. -/
def afterHeals (g : Game) : Game :=
  { g with players := consumeHeals g.players (doctorHealsOf g.nightActions) }

/-- The state effects of Game.resolveNight before the win check: heal
consumption, the vampire turn, framing, the jailor execution, in source
order. -/
def nightEffects (g : Game) (pick : Nat) : Game :=
  jailExecuteStep (frameStep (vampireTurnStep (afterHeals g) pick))

/-- Game.resolveNight: effects, then the win check, then the transition to
DAY_DISCUSS unless the game ended. -/
def resolveNight (g : Game) (pick : Nat) : Game :=
  let g4 := checkWinCondition (nightEffects g pick)
  if g4.state ≠ .GAME_OVER then startDayDiscuss g4 else g4

/-! The voting resolver, Game.resolveVoting. -/

/-- Day-vote tally: counts per target in order of first appearance among
the vote values. -/
def tallyVotes (votes : List (Nat × Nat)) : List (Option Nat × Nat) :=
  votes.foldl (fun acc v => bumpCount acc (some v.2)) []

/-- The number of living players at tally time. -/
def livingCount (g : Game) : Nat :=
  (livingPlayers g).length

/-- The first tallied target whose count meets the majority threshold
count at-least livingCount / 2, the exact rational comparison embedded as
livingCount less-or-equal 2 * count. -/
def lynchTarget (g : Game) : Option (Option Nat × Nat) :=
  (tallyVotes g.votes).find? (fun tc => livingCount g ≤ 2 * tc.2)

/-- The state right after the lynch kill and its logs, before the Jester
test of Game.resolveVoting. -/
def afterLynchKill (g : Game) (lid : Nat) (victim : Player) : Game :=
  { g with players := updateFirst g.players lid (fun p => { p with alive := false }),
           logs := g.logs ++ [lynchedLog g.round victim.name] }

/-- The non-Jester continuation: optional role reveal, then the win check,
then the next night unless the game ended. -/
def postLynch (g : Game) (lid : Nat) (victim : Player) : Game :=
  let g1 := afterLynchKill g lid victim
  let g2 := if g.revealRole then
              { g1 with logs := g1.logs ++ [revealRoleLog g.round victim.name victim.role] }
            else g1
  let g3 := checkWinCondition g2
  if g3.state ≠ .GAME_OVER then startNight g3 else g3

/-- Game.resolveVoting: lynch the first qualifying target if any; a Jester
victim ends the game at once with winner Jester, skipping the win check;
otherwise run the win check and start the next night.  A qualifying
target id that names no player would crash the source process; it is
embedded as leaving the state unchanged. -/
def resolveVoting (g : Game) : Game :=
  match lynchTarget g with
  | some tc =>
    (match tc.1 with
     | none => g
     | some lid =>
       match findPlayer g lid with
       | none => g
       | some victim =>
         if victim.role = .Jester then
           let g1 := afterLynchKill g lid victim
           { g1 with state := .GAME_OVER, winner := some "Jester",
                     logs := g1.logs ++ [jesterWinsLog g.round] }
         else
           postLynch g lid victim)
  | none =>
    let g1 := { g with logs := g.logs ++ [noLynchLog g.round] }
    let g2 := checkWinCondition g1
    if g2.state ≠ .GAME_OVER then startNight g2 else g2

/-! The night-action socket handler. -/

/-- The payload of a night-action event: the action type, the optional
target, and the explicit cancel flag. -/
structure ActionInput where
  type : ActionType
  targetId : Option Nat
  clear : Bool := false
  deriving DecidableEq, Repr

/-- Lookup of the target player named by the payload. -/
def findTarget (g : Game) (t : Option Nat) : Option Player :=
  t.bind (fun tid => g.players.find? (fun p => p.id == tid))

/-- The living vampire-role players of the session. -/
def aliveVampires (g : Game) : List Player :=
  g.players.filter (fun p => isVampireRole p.role && p.alive)

/-- Teammate notifications sent to every listed player other than the
submitter that has a socket. -/
def notifyTeam (team : List Player) (exceptId : Nat) (k : NoticeKind) : List Notice :=
  team.foldr (fun v acc => (if v.socketId.isSome ∧ v.id ≠ exceptId then [(v.id, k)] else []) ++ acc) []

/-- The night-action handler, socket event night_action, embedded with its
source control flow: the clear path first, then BITE validation and
teammate notification (falling through), HEAL validation (falling
through), the JAIL, EXECUTE and CANCEL_EXECUTE branches (each
returning), the jailed-player block, the FRAME branch, and finally the
generic insertion under the actor's main key. -/
def nightAction (g : Game) (sockId : Nat) (act : ActionInput) : Game × List Notice :=
  match findBySocket g sockId with
  | none => (g, [])
  | some player =>
    if g.state ≠ .NIGHT then (g, []) else
    if act.clear ∨ (act.targetId = none ∧ act.type ≠ .EXECUTE) then
      -- clearing / uncasting of an action
      let cancelMsgs :=
        if act.type = .BITE ∧ (ledgerGet g.nightActions (.main player.id)).isSome then
          (if (aliveVampires g).length > 1 then
            notifyTeam (aliveVampires g) player.id (.cancelledVote player.id)
          else [])
        else []
      if act.type = .FRAME ∧ (ledgerGet g.nightActions (.frame player.id)).isSome then
        ({ g with nightActions := ledgerDel g.nightActions (.frame player.id) }, cancelMsgs)
      else
        ({ g with nightActions := ledgerDel g.nightActions (.main player.id) }, cancelMsgs)
    else
    -- BITE validation: vampires cannot target vampire-role players
    if act.type = .BITE ∧ (findTarget g act.targetId).any (fun t => isVampireRole t.role) = true then
      (g, [(player.id, .cannotTurnFellowVampire)])
    else
    let biteMsgs :=
      if act.type = .BITE then
        match findTarget g act.targetId with
        | some target =>
          if (aliveVampires g).length > 1 then
            notifyTeam (aliveVampires g) player.id (.votedToTurn player.id target.id)
          else []
        | none => []
      else []
    -- HEAL validation
    if act.type = .HEAL ∧ player.role ≠ .Doctor then (g, biteMsgs) else
    if act.type = .HEAL ∧ player.healsRemaining = 0 then
      (g, biteMsgs ++ [(player.id, .noHealsRemaining)])
    else
    -- JAIL branch
    if act.type = .JAIL then
      if player.role ≠ .Jailor then (g, biteMsgs) else
      if ¬ player.alive then (g, biteMsgs) else
      match findTarget g act.targetId with
      | none => (g, biteMsgs ++ [(player.id, .invalidJailTarget)])
      | some target =>
        if ¬ target.alive then (g, biteMsgs ++ [(player.id, .invalidJailTarget)]) else
        if target.id = player.id then (g, biteMsgs ++ [(player.id, .cannotJailSelf)]) else
        let purged := ledgerGet g.nightActions (.main target.id)
        let purgeMsgs :=
          match purged with
          | some ex =>
            if ex.type = .BITE then
              notifyTeam
                (g.players.filter (fun p => p.role == .Vampire && p.alive && !(p.id == target.id)))
                target.id (.voteCancelledJailed target.id)
            else []
          | none => []
        let ledger' :=
          if purged.isSome then ledgerDel g.nightActions (.main target.id) else g.nightActions
        ({ g with jailedPlayerId := some target.id, jailorId := some player.id,
                  nightActions := ledger' },
         biteMsgs ++ purgeMsgs ++ [(player.id, .youJailedTarget target.id)] ++ emitIf target .youWereJailed)
    else
    -- EXECUTE branch
    if act.type = .EXECUTE then
      if player.role ≠ .Jailor then (g, biteMsgs) else
      if g.jailorId ≠ some player.id then (g, biteMsgs ++ [(player.id, .noPrisoner)]) else
      let ledger' := ledgerSet g.nightActions (.main player.id) ⟨.EXECUTE, player.id, g.jailedPlayerId⟩
      let g' := { g with nightActions := ledger' }
      let prisonerMsgs :=
        match g.jailedPlayerId.bind (fun t => g.players.find? (fun p => p.id == t)) with
        | some prisoner => emitIf prisoner .jailorWillExecuteYou
        | none => []
      (g', biteMsgs ++ [(player.id, .decidedToExecute)] ++ prisonerMsgs)
    else
    -- CANCEL_EXECUTE branch
    if act.type = .CANCEL_EXECUTE then
      if player.role ≠ .Jailor then (g, biteMsgs) else
      if g.jailorId ≠ some player.id then (g, biteMsgs) else
      if (ledgerGet g.nightActions (.main player.id)).map (fun a => a.type) = some .EXECUTE then
        let prisonerMsgs :=
          match g.jailedPlayerId.bind (fun t => g.players.find? (fun p => p.id == t)) with
          | some prisoner => emitIf prisoner .jailorSparedYou
          | none => []
        ({ g with nightActions := ledgerDel g.nightActions (.main player.id) },
         biteMsgs ++ [(player.id, .executionCancelled)] ++ prisonerMsgs)
      else (g, biteMsgs)
    else
    -- jailed players are blocked from the remaining action types
    if g.jailedPlayerId = some player.id then
      (g, biteMsgs ++ [(player.id, .jailedCannotAct)])
    else
    -- FRAME branch: stored under the separate frame key
    if act.type = .FRAME then
      if player.role ≠ .VampireFramer then (g, biteMsgs) else
      if ¬ player.alive then (g, biteMsgs) else
      match findTarget g act.targetId with
      | none => (g, biteMsgs ++ [(player.id, .invalidFrameTarget)])
      | some target =>
        if ¬ target.alive then (g, biteMsgs ++ [(player.id, .invalidFrameTarget)]) else
        if isVampireRole target.role then (g, biteMsgs ++ [(player.id, .cannotFrameFellowVampire)]) else
        let ledger' := ledgerSet g.nightActions (.frame player.id) ⟨act.type, player.id, act.targetId⟩
        ({ g with nightActions := ledger' }, biteMsgs)
    else
    -- generic insertion under the actor's main key
    let ledger' := ledgerSet g.nightActions (.main player.id) ⟨act.type, player.id, act.targetId⟩
    ({ g with nightActions := ledger' }, biteMsgs)

/-- The day-vote socket handler, event day_vote: only in DAY_VOTE and only
for a living voter; a null target retracts the vote, otherwise the vote
map entry is set. -/
def votesSet (votes : List (Nat × Nat)) (voter target : Nat) : List (Nat × Nat) :=
  if (votes.find? (fun v => v.1 == voter)).isSome then
    votes.map (fun v => if v.1 == voter then (voter, target) else v)
  else
    votes ++ [(voter, target)]

/-- The day_vote handler. -/
def dayVote (g : Game) (sockId : Nat) (targetId : Option Nat) : Game :=
  match findBySocket g sockId with
  | none => g
  | some player =>
    if g.state = .DAY_VOTE ∧ player.alive then
      match targetId with
      | none => { g with votes := g.votes.filter (fun v => !(v.1 == player.id)) }
      | some t => { g with votes := votesSet g.votes player.id t }
    else g

/-! The visibility projector, Game.broadcastUpdate.  The per-recipient
players array is the part the redaction claims inspect; an undefined
JavaScript field becomes none. -/

/-- Game.countVotesFor. -/
def countVotesFor (g : Game) (pid : Nat) : Nat :=
  if g.state = .DAY_VOTE then (g.votes.filter (fun v => v.2 == pid)).length else 0

/-- Game.countVampireVotesFor. -/
def countVampireVotesFor (g : Game) (pid : Nat) : Nat :=
  if g.state = .NIGHT then
    ((ledgerValues g.nightActions).filter (fun a => a.type == .BITE && a.targetId == some pid)).length
  else 0

/-- One row of the per-recipient players array of a broadcast. -/
structure PlayerEntry where
  id : Nat
  name : String
  alive : Bool
  votes : Nat
  isNPC : Bool
  role : Option Role
  alignment : Option Alignment
  isVampire : Option Bool
  vampireRole : Option Role
  vampireVotes : Option Nat
  deriving DecidableEq, Repr

/-- The row describing player p in the state view sent to the viewer. -/
def playerEntryFor (g : Game) (viewer p : Player) : PlayerEntry :=
  let viewerIsVampire := isVampireRole viewer.role
  { id := p.id
    name := p.name
    alive := p.alive
    votes := countVotesFor g p.id
    isNPC := p.isNPC
    role := if g.state = .GAME_OVER then some p.role else none
    alignment := if g.state = .GAME_OVER then some p.alignment else none
    isVampire := if viewerIsVampire then some (isVampireRole p.role) else none
    vampireRole := if viewerIsVampire ∧ isVampireRole p.role then some p.role else none
    vampireVotes :=
      if viewerIsVampire ∧ g.state = .NIGHT ∧ g.round % 2 = 0 then
        some (countVampireVotesFor g p.id)
      else none }

/-- The players array of the state view sent to the viewer. -/
def viewFor (g : Game) (viewer : Player) : List PlayerEntry :=
  g.players.map (playerEntryFor g viewer)

/-! The role-pool trimming of Game.assignRoles (the explicit-configuration
branch with more requested roles than players).  Pool entries are tagged
with an index so that the object identity the source filters on
(rolesToExclude.includes) is represented; the alignment stored alongside
each role is always roleAlignments of the role.  Each shuffle call is an
arbitrary reordering, taken as the shuf parameter. -/

/-- A pool entry: the identity tag and the role. -/
structure PoolRole where
  idx : Nat
  role : Role
  deriving DecidableEq, Repr

/-- The stored align field of a pool entry. -/
def poolAlign (r : PoolRole) : Alignment := roleAlignments r.role

/-- excessCount of the trimming. -/
def excessOf (pool : List PoolRole) (total : Nat) : Nat := pool.length - total

/-- evilRoles of the trimming. -/
def evilRolesOf (pool : List PoolRole) : List PoolRole :=
  pool.filter (fun r => poolAlign r == .evil)

/-- goodRoles of the trimming. -/
def goodRolesOf (pool : List PoolRole) : List PoolRole :=
  pool.filter (fun r => poolAlign r == .good)

/-- neutralRoles of the trimming. -/
def neutralRolesOf (pool : List PoolRole) : List PoolRole :=
  pool.filter (fun r => poolAlign r == .neutral)

/-- minGood, the good-majority floor. -/
def minGoodFor (total : Nat) : Nat := total / 2 + 1

/-- evilToRemove: excess evil roles beyond the floor of one, capped by
the excess. -/
def evilToRemoveOf (pool : List PoolRole) (total : Nat) : Nat :=
  min (excessOf pool total) ((evilRolesOf pool).length - 1)

/-- remaining after the evil removals. -/
def remaining1Of (pool : List PoolRole) (total : Nat) : Nat :=
  excessOf pool total - evilToRemoveOf pool total

/-- neutralToRemove. -/
def neutralToRemoveOf (pool : List PoolRole) (total : Nat) : Nat :=
  min (remaining1Of pool total) (neutralRolesOf pool).length

/-- remaining after the neutral removals. -/
def remaining2Of (pool : List PoolRole) (total : Nat) : Nat :=
  remaining1Of pool total - neutralToRemoveOf pool total

/-- goodToRemove: excess good roles beyond the majority floor, capped by
what is still to remove. -/
def goodToRemoveOf (pool : List PoolRole) (total : Nat) : Nat :=
  min (remaining2Of pool total) ((goodRolesOf pool).length - minGoodFor total)

/-- remaining after the good removals. -/
def remaining3Of (pool : List PoolRole) (total : Nat) : Nat :=
  remaining2Of pool total - goodToRemoveOf pool total

/-- The shuffled evil-phase removals. -/
def takeEvilOf (pool : List PoolRole) (total : Nat)
    (shuf : List PoolRole → List PoolRole) : List PoolRole :=
  (shuf (evilRolesOf pool)).take (evilToRemoveOf pool total)

/-- The shuffled neutral-phase removals. -/
def takeNeutralOf (pool : List PoolRole) (total : Nat)
    (shuf : List PoolRole → List PoolRole) : List PoolRole :=
  (shuf (neutralRolesOf pool)).take (neutralToRemoveOf pool total)

/-- The shuffled good-phase removals. -/
def takeGoodOf (pool : List PoolRole) (total : Nat)
    (shuf : List PoolRole → List PoolRole) : List PoolRole :=
  (shuf (goodRolesOf pool)).take (goodToRemoveOf pool total)

/-- rolesToExclude after the three alignment-directed phases. -/
def ex3Of (pool : List PoolRole) (total : Nat)
    (shuf : List PoolRole → List PoolRole) : List PoolRole :=
  (takeEvilOf pool total shuf ++ takeNeutralOf pool total shuf)
    ++ takeGoodOf pool total shuf

/-- rolesToExclude after the arbitrary overflow phase. -/
def ex4Of (pool : List PoolRole) (total : Nat)
    (shuf : List PoolRole → List PoolRole) : List PoolRole :=
  if remaining3Of pool total > 0 then
    ex3Of pool total shuf
      ++ (shuf (pool.filter (fun r => !((ex3Of pool total shuf).contains r)))).take
           (remaining3Of pool total)
  else ex3Of pool total shuf

/-- The smart-exclusion trimming of an over-provisioned explicit pool:
remove evil roles down to a floor of one, then neutral roles, then good
roles down to the good-majority floor, then arbitrarily. -/
def smartExclusion (pool : List PoolRole) (total : Nat)
    (shuf : List PoolRole → List PoolRole) : List PoolRole :=
  if pool.length ≤ total then pool
  else pool.filter (fun r => !((ex4Of pool total shuf).contains r))

/-! Observation helpers used to state and prove the claims. -/

/-- The heals counter of the player a find-by-id locates. -/
def healsOf (ps : List Player) (pid : Nat) : Option Nat :=
  (ps.find? (fun q => q.id == pid)).map (fun p => p.healsRemaining)

/-- The role, alignment and turned flag of the player a find-by-id
locates. -/
def roleOf (ps : List Player) (pid : Nat) : Option (Role × Alignment × Bool) :=
  (ps.find? (fun q => q.id == pid)).map (fun p => (p.role, p.alignment, p.isTurned))

/-- The id, role, alignment and turned flag of every player, in order. -/
def roleView (ps : List Player) : List (Nat × Role × Alignment × Bool) :=
  ps.map (fun p => (p.id, p.role, p.alignment, p.isTurned))

/-- The cumulative effect of n guarded heal decrements on one player. -/
def applyHeals (p : Player) (n : Nat) : Player :=
  if p.role = .Doctor then { p with healsRemaining := p.healsRemaining - n } else p

/-- The number of HEAL ledger entries an actor submitted. -/
def healSubmissions (l : Ledger) (pid : Nat) : Nat :=
  ((doctorHealsOf l).filter (fun h => h.1 == pid)).length

/-! Concrete sessions used as witnesses and counterexamples. -/

/-- A running session: four players of whom two are living vampires. -/
def wEvilHalf : Game :=
  { players := [
      { id := 0, name := "V1", role := .Vampire, alignment := .evil, alive := true },
      { id := 1, name := "V2", role := .VampireFramer, alignment := .evil, alive := true },
      { id := 2, name := "A", role := .Citizen, alignment := .good, alive := true },
      { id := 3, name := "B", role := .Doctor, alignment := .good, alive := true, healsRemaining := 3 } ],
    state := .NIGHT, round := 1, nightActions := [], votes := [], winner := none, logs := [],
    jailedPlayerId := none, jailorId := none, jailorPendingDeath := false,
    framedPlayers := [], revealRole := false }

/-- A day-vote session whose dead player holds socket 5. -/
def wDeadVoter : Game :=
  { players := [
      { id := 0, name := "Dead", role := .Citizen, alignment := .good, alive := false, socketId := some 5 },
      { id := 1, name := "Live", role := .Citizen, alignment := .good, alive := true, socketId := some 6 },
      { id := 2, name := "V", role := .Vampire, alignment := .evil, alive := true } ],
    state := .DAY_VOTE, round := 1, nightActions := [], votes := [], winner := none, logs := [],
    jailedPlayerId := none, jailorId := none, jailorPendingDeath := false,
    framedPlayers := [], revealRole := false }

/-- The dead player of wDeadVoter. -/
def wDeadVoterP : Player :=
  { id := 0, name := "Dead", role := .Citizen, alignment := .good, alive := false, socketId := some 5 }

/-- A day-vote session in which the Jester holds a qualifying vote count
and no evil player lives, so that the normal evaluator would have
declared GOOD. -/
def wJester : Game :=
  { players := [
      { id := 1, name := "Jes", role := .Jester, alignment := .neutral, alive := true },
      { id := 2, name := "A", role := .Citizen, alignment := .good, alive := true },
      { id := 3, name := "B", role := .Citizen, alignment := .good, alive := true } ],
    state := .DAY_VOTE, round := 3, nightActions := [], votes := [(2, 1), (3, 1)],
    winner := none, logs := [], jailedPlayerId := none, jailorId := none,
    jailorPendingDeath := false, framedPlayers := [], revealRole := false }

/-- The Jester of wJester. -/
def wJesterP : Player :=
  { id := 1, name := "Jes", role := .Jester, alignment := .neutral, alive := true }

/-! General lemmas about the find-and-mutate embedding pattern. -/

theorem updateFirst_find_eq (ps : List Player) (pid : Nat) (f : Player → Player)
    (hid : ∀ q, (f q).id = q.id) :
    (updateFirst ps pid f).find? (fun q => q.id == pid)
      = (ps.find? (fun q => q.id == pid)).map f := by
  induction ps with
  | nil => rfl
  | cons r rest ih =>
    by_cases hr : r.id = pid
    · simp [updateFirst, hr, List.find?_cons, hid]
    · simp [updateFirst, hr, List.find?_cons, ih]

theorem updateFirst_find_ne (ps : List Player) (tid pid : Nat) (f : Player → Player)
    (hid : ∀ q, (f q).id = q.id) (hne : tid ≠ pid) :
    (updateFirst ps tid f).find? (fun q => q.id == pid)
      = ps.find? (fun q => q.id == pid) := by
  induction ps with
  | nil => rfl
  | cons r rest ih =>
    by_cases hr : r.id = tid
    · have hrp : r.id ≠ pid := by rw [hr]; exact hne
      simp [updateFirst, hr, List.find?_cons, hid, hrp, hne]
    · by_cases hp : r.id = pid
      · simp [updateFirst, hr, List.find?_cons, hp, Ne.symm hne]
      · simp [updateFirst, hr, List.find?_cons, hp, ih]

theorem find_map_updateFirst {β : Type} (view : Player → β) (ps : List Player)
    (tid pid : Nat) (f : Player → Player)
    (hid : ∀ q, (f q).id = q.id) (hview : ∀ q, view (f q) = view q) :
    ((updateFirst ps tid f).find? (fun q => q.id == pid)).map view
      = (ps.find? (fun q => q.id == pid)).map view := by
  by_cases h : tid = pid
  · subst h
    rw [updateFirst_find_eq ps tid f hid]
    cases ps.find? (fun q => q.id == tid) with
    | none => rfl
    | some p => simp [hview]
  · rw [updateFirst_find_ne ps tid pid f hid h]

theorem updateFirst_map {β : Type} (view : Player → β) (ps : List Player)
    (tid : Nat) (f : Player → Player) (hview : ∀ q, view (f q) = view q) :
    (updateFirst ps tid f).map view = ps.map view := by
  induction ps with
  | nil => rfl
  | cons r rest ih =>
    by_cases hr : r.id = tid
    · simp [updateFirst, hr, hview]
    · simp [updateFirst, hr, ih]

theorem players_checkWin (g : Game) : (checkWinCondition g).players = g.players := by
  unfold checkWinCondition
  dsimp only
  split_ifs <;> rfl

theorem players_startNight (g : Game) : (startNight g).players = g.players := rfl

theorem players_frameStep (g : Game) : (frameStep g).players = g.players := rfl

/-- C10: a day_vote submission mutates the vote map only in DAY_VOTE and
only for a living voter found by socket; a submission from a dead or
unknown player, or one arriving in any other phase, leaves the whole
session state unchanged; an accepted submission changes the votes field
only (retracting on a null target, setting otherwise). -/
theorem day_vote_guard (g : Game) (sockId : Nat) (targetId : Option Nat) :
    (findBySocket g sockId = none → dayVote g sockId targetId = g) ∧
    (∀ p, findBySocket g sockId = some p → g.state ≠ .DAY_VOTE → dayVote g sockId targetId = g) ∧
    (∀ p, findBySocket g sockId = some p → p.alive = false → dayVote g sockId targetId = g) ∧
    (∀ p, findBySocket g sockId = some p → g.state = .DAY_VOTE → p.alive = true →
      dayVote g sockId targetId =
        (match targetId with
         | none => { g with votes := g.votes.filter (fun v => !(v.1 == p.id)) }
         | some t => { g with votes := votesSet g.votes p.id t })) := by
  refine ⟨?_, ?_, ?_, ?_⟩
  · intro h
    unfold dayVote
    rw [h]
  · intro p h hst
    unfold dayVote
    rw [h]
    simp only
    rw [if_neg]
    intro hc
    exact hst hc.1
  · intro p h hal
    unfold dayVote
    rw [h]
    simp only
    rw [if_neg]
    intro hc
    rw [hal] at hc
    exact Bool.false_ne_true hc.2
  · intro p h hst hal
    unfold dayVote
    rw [h]
    simp only
    rw [if_pos ⟨hst, hal⟩]

/-- Witness for C10: the dead player of wDeadVoter submits a day vote in
DAY_VOTE and the session is unchanged. -/
theorem day_vote_guard_witness :
    findBySocket wDeadVoter 5 = some wDeadVoterP ∧ wDeadVoterP.alive = false ∧
    dayVote wDeadVoter 5 (some 1) = wDeadVoter :=
  ⟨by decide, by decide,
   (day_vote_guard wDeadVoter 5 (some 1)).2.2.1 wDeadVoterP (by decide) (by decide)⟩

/-- One guarded heal decrement followed by n more amounts to n+1. -/
theorem applyHeals_step (p : Player) (m : Nat) :
    applyHeals (if p.role = .Doctor ∧ p.healsRemaining > 0
                then { p with healsRemaining := p.healsRemaining - 1 } else p) m
      = applyHeals p (m + 1) := by
  by_cases hd : p.role = .Doctor
  · by_cases hz : p.healsRemaining > 0
    · simp [applyHeals, hd, hz, Nat.sub_sub, Nat.add_comm]
    · have h0 : p.healsRemaining = 0 := by omega
      simp [applyHeals, hd, hz, h0]
  · simp [applyHeals, hd]

/-- The heal-consumption fold changes the player a find-by-id locates by
exactly one guarded decrement per matching doctorHeals record. -/
theorem consumeHeals_find (hs : List (Nat × Option Nat)) (ps : List Player) (pid : Nat) :
    (consumeHeals ps hs).find? (fun q => q.id == pid)
      = (ps.find? (fun q => q.id == pid)).map
          (fun p => applyHeals p ((hs.filter (fun h => h.1 == pid)).length)) := by
  induction hs generalizing ps with
  | nil =>
    cases hfind : ps.find? (fun q => q.id == pid) with
    | none => simp [consumeHeals, hfind]
    | some p =>
      show ps.find? (fun q => q.id == pid) = _
      rw [hfind]
      show some p = some (applyHeals p (List.length (List.filter (fun h => h.1 == pid) [])))
      unfold applyHeals
      split_ifs <;> rfl
  | cons h t ih =>
    have hstep : consumeHeals ps (h :: t)
        = consumeHeals (updateFirst ps h.1
            (fun p => if p.role = .Doctor ∧ p.healsRemaining > 0
                      then { p with healsRemaining := p.healsRemaining - 1 } else p)) t := rfl
    rw [hstep, ih]
    by_cases hh : h.1 = pid
    · subst hh
      rw [updateFirst_find_eq _ _ _ (fun q => by split_ifs <;> rfl)]
      have hfil : (List.filter (fun x => x.1 == h.1) (h :: t)).length
          = (List.filter (fun x => x.1 == h.1) t).length + 1 := by
        simp [List.filter_cons]
      rw [hfil]
      cases hfind : ps.find? (fun q => q.id == h.1) with
      | none => rfl
      | some p => exact congrArg some (applyHeals_step p _)
    · rw [updateFirst_find_ne _ _ _ _ (fun q => by split_ifs <;> rfl) hh]
      have hfil : (List.filter (fun x => x.1 == pid) (h :: t)) = List.filter (fun x => x.1 == pid) t := by
        simp [List.filter_cons, hh]
      rw [hfil]

/-- The framing step never changes the roster at all. -/
theorem healsOf_frameStep (g : Game) (pid : Nat) :
    healsOf (frameStep g).players pid = healsOf g.players pid := by
  rw [players_frameStep]

/-- The vampire-turn step never changes any player's heal counter. -/
theorem healsOf_vampireTurnStep (g : Game) (pick : Nat) (pid : Nat) :
    healsOf (vampireTurnStep g pick).players pid = healsOf g.players pid := by
  unfold vampireTurnStep
  repeat' split
  all_goals simp only [healsOf]
  all_goals try rfl
  all_goals try split_ifs
  all_goals try rfl
  all_goals exact find_map_updateFirst _ _ _ _ _ (fun q => rfl) (fun q => rfl)

/-- The jailor-execution step never changes any player's heal counter. -/
theorem healsOf_jailExecuteStep (g : Game) (pid : Nat) :
    healsOf (jailExecuteStep g).players pid = healsOf g.players pid := by
  unfold jailExecuteStep
  repeat' split
  all_goals simp only [healsOf]
  all_goals try rfl
  all_goals try split_ifs
  all_goals try rfl
  all_goals exact find_map_updateFirst _ _ _ _ _ (fun q => rfl) (fun q => rfl)

/-- The day-discussion transition never changes any player's heal
counter. -/
theorem healsOf_startDayDiscuss (g : Game) (pid : Nat) :
    healsOf (startDayDiscuss g).players pid = healsOf g.players pid := by
  unfold startDayDiscuss
  dsimp only
  repeat' split
  all_goals simp only [healsOf]
  all_goals try rfl
  all_goals try split_ifs
  all_goals try rfl
  all_goals exact find_map_updateFirst _ _ _ _ _ (fun q => rfl) (fun q => rfl)

/-- C4: at night resolution every Doctor loses exactly one heal per HEAL
entry they submitted, independent of save success, clamped at zero: the
resulting counter is the truncated difference, equivalently the
integer-side max with zero. -/
theorem heal_consumption (g : Game) (pick : Nat) (pid : Nat) (p : Player)
    (hp : findPlayer g pid = some p) (hrole : p.role = .Doctor) :
    healsOf (resolveNight g pick).players pid
      = some (p.healsRemaining - healSubmissions g.nightActions pid) ∧
    (∀ q, findPlayer (resolveNight g pick) pid = some q →
      (q.healsRemaining : ℤ)
        = max ((p.healsRemaining : ℤ) - (healSubmissions g.nightActions pid : ℤ)) 0) := by
  have hchain : healsOf (resolveNight g pick).players pid
      = healsOf (nightEffects g pick).players pid := by
    unfold resolveNight
    dsimp only
    split_ifs
    · rw [healsOf_startDayDiscuss]
      simp only [healsOf, players_checkWin]
    · simp only [healsOf, players_checkWin]
  have heff : healsOf (nightEffects g pick).players pid
      = some (p.healsRemaining - healSubmissions g.nightActions pid) := by
    unfold nightEffects
    rw [healsOf_jailExecuteStep, healsOf_frameStep, healsOf_vampireTurnStep]
    unfold afterHeals
    dsimp only
    simp only [healsOf]
    rw [consumeHeals_find]
    unfold findPlayer at hp
    rw [hp]
    show some ((applyHeals p (healSubmissions g.nightActions pid)).healsRemaining)
      = some (p.healsRemaining - healSubmissions g.nightActions pid)
    unfold applyHeals
    rw [if_pos hrole]
  have hmain : healsOf (resolveNight g pick).players pid
      = some (p.healsRemaining - healSubmissions g.nightActions pid) := hchain.trans heff
  refine ⟨hmain, ?_⟩
  intro q hq
  unfold findPlayer at hq
  unfold healsOf at hmain
  rw [hq] at hmain
  have hval : q.healsRemaining = p.healsRemaining - healSubmissions g.nightActions pid :=
    Option.some.inj hmain
  omega

/-- A night session in which the Doctor heals a target the vampires do
not bite: the heal is consumed although it saves no one. -/
def wDoctorNight : Game :=
  { players := [
      { id := 0, name := "V1", role := .Vampire, alignment := .evil, alive := true },
      { id := 1, name := "D", role := .Doctor, alignment := .good, alive := true, healsRemaining := 3 },
      { id := 2, name := "A", role := .Citizen, alignment := .good, alive := true },
      { id := 3, name := "B", role := .Citizen, alignment := .good, alive := true },
      { id := 4, name := "C", role := .Citizen, alignment := .good, alive := true } ],
    state := .NIGHT, round := 2,
    nightActions := [(.main 0, ⟨.BITE, 0, some 2⟩), (.main 1, ⟨.HEAL, 1, some 3⟩)],
    votes := [], winner := none, logs := [], jailedPlayerId := none, jailorId := none,
    jailorPendingDeath := false, framedPlayers := [], revealRole := false }

/-- The Doctor of wDoctorNight. -/
def wDoctorP : Player :=
  { id := 1, name := "D", role := .Doctor, alignment := .good, alive := true, healsRemaining := 3 }

/-- Witness for C4: the Doctor of wDoctorNight submitted one HEAL, saved
no one, and their counter drops from 3 to 2. -/
theorem heal_consumption_witness :
    findPlayer wDoctorNight 1 = some wDoctorP ∧ wDoctorP.role = .Doctor ∧
    healSubmissions wDoctorNight.nightActions 1 = 1 ∧
    healsOf (resolveNight wDoctorNight 0).players 1
      = some (wDoctorP.healsRemaining - healSubmissions wDoctorNight.nightActions 1) :=
  ⟨by decide, by decide, by decide,
   (heal_consumption wDoctorNight 0 1 wDoctorP (by decide) (by decide)).1⟩

/-- Bridge between the exact rational threshold of the source (a number
division compared with at-least) and the cross-multiplied natural-number
comparison the embedding computes with. -/
theorem rat_ge_half_iff (a b : ℕ) : ((a : ℚ) ≥ (b : ℚ) / 2) ↔ b ≤ 2 * a := by
  rw [ge_iff_le, div_le_iff₀ (by norm_num : (0 : ℚ) < 2)]
  constructor
  · intro h
    have : b ≤ a * 2 := by exact_mod_cast h
    omega
  · intro h
    have : (b : ℚ) ≤ (a : ℚ) * 2 := by exact_mod_cast (by omega : b ≤ a * 2)
    exact this

/-- C2: the win evaluator declares GOOD exactly when no living player is
evil-aligned, declares EVIL exactly when some living player is
evil-aligned and the living evil count meets the exact rational half of
the living count, and otherwise leaves the session unchanged; the same
evaluator is the one resolveNight and the non-Jester path of
resolveVoting invoke. -/
theorem win_evaluator (g : Game) (pick : Nat) (hw : g.winner = none) :
    ((checkWinCondition g).winner = some "GOOD" ↔ (evilLiving g).length = 0) ∧
    ((checkWinCondition g).winner = some "EVIL" ↔
      ((evilLiving g).length ≠ 0 ∧
        ((evilLiving g).length : ℚ) ≥ ((livingPlayers g).length : ℚ) / 2)) ∧
    ((evilLiving g).length ≠ 0 →
      ¬ (((evilLiving g).length : ℚ) ≥ ((livingPlayers g).length : ℚ) / 2) →
      checkWinCondition g = g) ∧
    (resolveNight g pick =
      (if (checkWinCondition (nightEffects g pick)).state ≠ .GAME_OVER
       then startDayDiscuss (checkWinCondition (nightEffects g pick))
       else checkWinCondition (nightEffects g pick))) ∧
    (∀ lid c victim, lynchTarget g = some (some lid, c) → findPlayer g lid = some victim →
      victim.role ≠ .Jester → resolveVoting g = postLynch g lid victim) := by
  have hbr := rat_ge_half_iff (evilLiving g).length (livingPlayers g).length
  refine ⟨?_, ?_, ?_, rfl, ?_⟩
  · unfold checkWinCondition
    dsimp only
    split_ifs with h1 h2
    · simp [h1]
    · simp [h1, show ("EVIL" : String) ≠ "GOOD" from by decide]
    · rw [hw]
      simp [h1]
  · unfold checkWinCondition
    dsimp only
    split_ifs with h1 h2
    · simp [h1, show ("GOOD" : String) ≠ "EVIL" from by decide]
    · simp [hbr, h1, h2]
    · rw [hw]
      simp [hbr, h2]
  · intro hne hrat
    have h2 : ¬ ((livingPlayers g).length ≤ 2 * (evilLiving g).length) :=
      fun hc => hrat (hbr.mpr hc)
    unfold checkWinCondition
    dsimp only
    rw [if_neg hne, if_neg h2]
  · intro lid c victim hl hv hj
    unfold resolveVoting
    rw [hl]
    simp only
    rw [hv]
    simp only
    rw [if_neg hj]

/-- Witness for C2: in wEvilHalf two of four living players are evil, so
the evaluator declares EVIL by the exact rational comparison. -/
theorem win_evaluator_witness :
    wEvilHalf.winner = none ∧
    ((checkWinCondition wEvilHalf).winner = some "EVIL" ↔
      ((evilLiving wEvilHalf).length ≠ 0 ∧
        ((evilLiving wEvilHalf).length : ℚ) ≥ ((livingPlayers wEvilHalf).length : ℚ) / 2)) :=
  ⟨rfl, (win_evaluator wEvilHalf 0 rfl).2.1⟩

/-- C3: the lynch threshold is the inclusive exact-rational majority: the
cross-multiplied test the tally uses is equivalent to count at-least
livingCount / 2 over the rationals; any lynched target meets it; a lynch
happens exactly when some tallied target meets it; with no qualifying
target the player roster (and so everyone's life) is untouched; with 5
living players 3 votes are needed and with 4 living players 2 suffice. -/
theorem lynch_threshold (g : Game) :
    (∀ c : ℕ, (livingCount g ≤ 2 * c) ↔ ((c : ℚ) ≥ (livingCount g : ℚ) / 2)) ∧
    (∀ tc, lynchTarget g = some tc → livingCount g ≤ 2 * tc.2) ∧
    ((lynchTarget g).isSome ↔ ∃ tc ∈ tallyVotes g.votes, livingCount g ≤ 2 * tc.2) ∧
    (lynchTarget g = none → (resolveVoting g).players = g.players) ∧
    (∀ lid c victim, lynchTarget g = some (some lid, c) → findPlayer g lid = some victim →
      (resolveVoting g).players = updateFirst g.players lid (fun p => { p with alive := false })) ∧
    (livingCount g = 5 → ∀ c : ℕ, (((c : ℚ) ≥ (livingCount g : ℚ) / 2) ↔ 3 ≤ c)) ∧
    (livingCount g = 4 → ∀ c : ℕ, (((c : ℚ) ≥ (livingCount g : ℚ) / 2) ↔ 2 ≤ c)) := by
  refine ⟨?_, ?_, ?_, ?_, ?_, ?_, ?_⟩
  · intro c
    exact (rat_ge_half_iff c (livingCount g)).symm
  · intro tc h
    have := List.find?_some h
    simpa using this
  · unfold lynchTarget
    rw [List.find?_isSome]
    simp
  · intro h
    unfold resolveVoting
    rw [h]
    dsimp only
    split_ifs
    · rw [players_startNight, players_checkWin]
    · rw [players_checkWin]
  · intro lid c victim hl hv
    unfold resolveVoting
    rw [hl]
    simp only
    rw [hv]
    simp only
    split_ifs with hj
    · rfl
    · unfold postLynch
      dsimp only
      split_ifs <;> simp only [players_startNight, players_checkWin] <;> rfl
  · intro h c
    rw [h, (rat_ge_half_iff c 5)]
    omega
  · intro h c
    rw [h, (rat_ge_half_iff c 4)]
    omega

/-- A day-vote session with five living players, three votes on player 2
and one on player 0. -/
def wVote5 : Game :=
  { players := [
      { id := 0, name := "P0", role := .Citizen, alignment := .good, alive := true },
      { id := 1, name := "P1", role := .Citizen, alignment := .good, alive := true },
      { id := 2, name := "P2", role := .Vampire, alignment := .evil, alive := true },
      { id := 3, name := "P3", role := .Citizen, alignment := .good, alive := true },
      { id := 4, name := "P4", role := .Doctor, alignment := .good, alive := true, healsRemaining := 2 } ],
    state := .DAY_VOTE, round := 2, nightActions := [], votes := [(0, 2), (1, 2), (3, 2), (4, 0)],
    winner := none, logs := [], jailedPlayerId := none, jailorId := none,
    jailorPendingDeath := false, framedPlayers := [], revealRole := false }

/-- Witness for C3: in wVote5 the target with three of five living votes
qualifies, and the 5-living instance of the threshold requires 3 votes. -/
theorem lynch_threshold_witness :
    lynchTarget wVote5 = some (some 2, 3) ∧ livingCount wVote5 ≤ 2 * 3 ∧
    livingCount wVote5 = 5 ∧ (((3 : ℕ) : ℚ) ≥ (livingCount wVote5 : ℚ) / 2 ↔ 3 ≤ 3) :=
  ⟨by decide, (lynch_threshold wVote5).2.1 (some 2, 3) (by decide), by decide,
   (lynch_threshold wVote5).2.2.2.2.2.1 (by decide) 3⟩

/-- C9: outside GAME_OVER no broadcast row carries a role or alignment
field, and the evil-team markers (the isVampire flag and the teammate
vampireRole field) are present only for an evil-aligned recipient; the
vampireRole field names a role only for a fellow evil-aligned player.
The hypothesis ties alignment to the vampire roles, the invariant every
role write of the source maintains through the roleAlignments table. -/
theorem visibility_redaction (g : Game) (viewer : Player)
    (hcons : ∀ q ∈ g.players, (q.alignment = .evil ↔ isVampireRole q.role = true))
    (hviewer : viewer ∈ g.players) (hstate : g.state ≠ .GAME_OVER) :
    (∀ e ∈ viewFor g viewer, e.role = none ∧ e.alignment = none ∧
      ((e.isVampire ≠ none ∨ e.vampireRole ≠ none) → viewer.alignment = .evil)) ∧
    (∀ p ∈ g.players,
      ((playerEntryFor g viewer p).isVampire = some true ↔
        (viewer.alignment = .evil ∧ p.alignment = .evil)) ∧
      (∀ r, (playerEntryFor g viewer p).vampireRole = some r →
        viewer.alignment = .evil ∧ p.alignment = .evil ∧ r = p.role)) := by
  have hv := hcons viewer hviewer
  constructor
  · intro e he
    rcases List.mem_map.mp he with ⟨p, hp, rfl⟩
    unfold playerEntryFor
    dsimp only
    refine ⟨if_neg hstate, if_neg hstate, ?_⟩
    intro hm
    by_cases hvr : isVampireRole viewer.role = true
    · exact hv.mpr hvr
    · exfalso
      rcases hm with hm | hm
      · rw [if_neg (by simpa using hvr)] at hm
        exact hm rfl
      · rw [if_neg (fun hc => hvr hc.1)] at hm
        exact hm rfl
  · intro p hp
    have hpc := hcons p hp
    unfold playerEntryFor
    dsimp only
    constructor
    · by_cases hvr : isVampireRole viewer.role = true
      · rw [if_pos (by simpa using hvr)]
        constructor
        · intro h
          have := Option.some.inj h
          exact ⟨hv.mpr hvr, hpc.mpr this⟩
        · intro ⟨hve, hpe⟩
          rw [hpc.mp hpe]
      · rw [if_neg (by simpa using hvr)]
        constructor
        · intro h
          exact absurd h (by simp)
        · intro ⟨hve, hpe⟩
          exact absurd (hv.mp hve) hvr
    · intro r hr
      by_cases hc : (isVampireRole viewer.role = true ∧ isVampireRole p.role = true)
      · rw [if_pos hc] at hr
        exact ⟨hv.mpr hc.1, hpc.mpr hc.2, (Option.some.inj hr).symm⟩
      · rw [if_neg hc] at hr
        exact absurd hr (by simp)

/-- A night broadcast scenario: recipient 0 is a Vampire, player 1 a
Vampire Framer, player 2 a Citizen. -/
def wView : Game :=
  { players := [
      { id := 0, name := "V", role := .Vampire, alignment := .evil, alive := true, socketId := some 1 },
      { id := 1, name := "F", role := .VampireFramer, alignment := .evil, alive := true },
      { id := 2, name := "C", role := .Citizen, alignment := .good, alive := true } ],
    state := .NIGHT, round := 2, nightActions := [], votes := [], winner := none, logs := [],
    jailedPlayerId := none, jailorId := none, jailorPendingDeath := false,
    framedPlayers := [], revealRole := false }

/-- The vampire recipient of wView. -/
def wViewV : Player :=
  { id := 0, name := "V", role := .Vampire, alignment := .evil, alive := true, socketId := some 1 }

/-- The citizen of wView. -/
def wViewC : Player :=
  { id := 2, name := "C", role := .Citizen, alignment := .good, alive := true }

/-- Witness for C9: in the NIGHT broadcast of wView to its vampire
recipient, the citizen row shows no role and no alignment and its
isVampire marker is not the fellow-evil mark. -/
theorem visibility_redaction_witness :
    (∀ q ∈ wView.players, (q.alignment = .evil ↔ isVampireRole q.role = true)) ∧
    wViewV ∈ wView.players ∧ wView.state ≠ .GAME_OVER ∧
    ((playerEntryFor wView wViewV wViewC).isVampire = some true ↔
      (wViewV.alignment = .evil ∧ wViewC.alignment = .evil)) :=
  ⟨by decide, by decide, by decide,
   ((visibility_redaction wView wViewV (by decide) (by decide) (by decide)).2
     wViewC (by decide)).1⟩

/-- C6 (amended): night-action validation is per action type.  JAIL and
FRAME require a living actor of the matching role; HEAL requires the
Doctor role with a heal left; EXECUTE requires the Jailor holding the
prisoner; a BITE target must not hold a vampire role.  Each rejection
leaves the session unchanged and notifies at most the submitter.
INVESTIGATE and LOOKOUT submissions are accepted into the ledger with no
actor-alive or role check at all. -/
theorem night_validation (g : Game) (sockId : Nat) (act : ActionInput)
    (player : Player) (tid : Nat)
    (h1 : findBySocket g sockId = some player) (h2 : g.state = .NIGHT)
    (hclear : act.clear = false) (htid : act.targetId = some tid) :
    (act.type = .HEAL → player.role ≠ .Doctor → nightAction g sockId act = (g, [])) ∧
    (act.type = .HEAL → player.role = .Doctor → player.healsRemaining = 0 →
      nightAction g sockId act = (g, [(player.id, .noHealsRemaining)])) ∧
    (act.type = .JAIL → player.role ≠ .Jailor → nightAction g sockId act = (g, [])) ∧
    (act.type = .JAIL → player.alive = false → nightAction g sockId act = (g, [])) ∧
    (act.type = .JAIL → player.role = .Jailor → player.alive = true →
      findTarget g act.targetId = none →
      nightAction g sockId act = (g, [(player.id, .invalidJailTarget)])) ∧
    (∀ target, act.type = .JAIL → player.role = .Jailor → player.alive = true →
      findTarget g act.targetId = some target → target.alive = false →
      nightAction g sockId act = (g, [(player.id, .invalidJailTarget)])) ∧
    (∀ target, act.type = .JAIL → player.role = .Jailor → player.alive = true →
      findTarget g act.targetId = some target → target.alive = true → target.id = player.id →
      nightAction g sockId act = (g, [(player.id, .cannotJailSelf)])) ∧
    (∀ target, act.type = .BITE → findTarget g act.targetId = some target →
      isVampireRole target.role = true →
      nightAction g sockId act = (g, [(player.id, .cannotTurnFellowVampire)])) ∧
    (act.type = .EXECUTE → player.role ≠ .Jailor → nightAction g sockId act = (g, [])) ∧
    (act.type = .EXECUTE → player.role = .Jailor → g.jailorId ≠ some player.id →
      nightAction g sockId act = (g, [(player.id, .noPrisoner)])) ∧
    (act.type = .FRAME → g.jailedPlayerId ≠ some player.id → player.role ≠ .VampireFramer →
      nightAction g sockId act = (g, [])) ∧
    (act.type = .FRAME → g.jailedPlayerId ≠ some player.id → player.role = .VampireFramer →
      player.alive = false → nightAction g sockId act = (g, [])) ∧
    (∀ target, act.type = .FRAME → g.jailedPlayerId ≠ some player.id →
      player.role = .VampireFramer → player.alive = true →
      findTarget g act.targetId = some target → isVampireRole target.role = true →
      target.alive = true →
      nightAction g sockId act = (g, [(player.id, .cannotFrameFellowVampire)])) ∧
    ((act.type = .INVESTIGATE ∨ act.type = .LOOKOUT) → g.jailedPlayerId ≠ some player.id →
      nightAction g sockId act =
        ({ g with nightActions :=
             ledgerSet g.nightActions (.main player.id) ⟨act.type, player.id, act.targetId⟩ }, [])) := by
  refine ⟨?_, ?_, ?_, ?_, ?_, ?_, ?_, ?_, ?_, ?_, ?_, ?_, ?_, ?_⟩
  · intro ht hr
    simp [nightAction, h1, h2, hclear, htid, ht, hr]
  · intro ht hr hz
    simp [nightAction, h1, h2, hclear, htid, ht, hr, hz]
  · intro ht hr
    simp [nightAction, h1, h2, hclear, htid, ht, hr]
  · intro ht hal
    simp [nightAction, h1, h2, hclear, htid, ht, hal]
  · intro ht hr hal htgt
    rw [htid] at htgt
    simp [nightAction, h1, h2, hclear, htid, ht, hr, hal, htgt]
  · intro target ht hr hal htgt htal
    rw [htid] at htgt
    simp [nightAction, h1, h2, hclear, htid, ht, hr, hal, htgt, htal]
  · intro target ht hr hal htgt htal hself
    rw [htid] at htgt
    simp [nightAction, h1, h2, hclear, htid, ht, hr, hal, htgt, htal, hself]
  · intro target ht htgt hvamp
    rw [htid] at htgt
    simp [nightAction, h1, h2, hclear, htid, ht, htgt, hvamp]
  · intro ht hr
    simp [nightAction, h1, h2, hclear, htid, ht, hr]
  · intro ht hr hj
    simp [nightAction, h1, h2, hclear, htid, ht, hr, hj]
  · intro ht hnj hr
    simp [nightAction, h1, h2, hclear, htid, ht, hnj, hr]
  · intro ht hnj hr hal
    simp [nightAction, h1, h2, hclear, htid, ht, hnj, hr, hal]
  · intro target ht hnj hr hal htgt hvamp htal
    rw [htid] at htgt
    simp [nightAction, h1, h2, hclear, htid, ht, hnj, hr, hal, htgt, hvamp, htal]
  · intro ht hnj
    rcases ht with ht | ht <;>
      simp [nightAction, h1, h2, hclear, htid, ht, hnj]

/-- A night session whose Doctor has no heals left and holds socket 9. -/
def wVote5Night : Game :=
  { players := [
      { id := 0, name := "P0", role := .Citizen, alignment := .good, alive := true },
      { id := 1, name := "Doc", role := .Doctor, alignment := .good, alive := true,
        healsRemaining := 0, socketId := some 9 },
      { id := 2, name := "V", role := .Vampire, alignment := .evil, alive := true } ],
    state := .NIGHT, round := 1, nightActions := [], votes := [], winner := none, logs := [],
    jailedPlayerId := none, jailorId := none, jailorPendingDeath := false,
    framedPlayers := [], revealRole := false }

/-- The exhausted Doctor of wVote5Night. -/
def wVote5Doctor : Player :=
  { id := 1, name := "Doc", role := .Doctor, alignment := .good, alive := true,
    healsRemaining := 0, socketId := some 9 }

/-- A night session whose dead citizen holds socket 7. -/
def wDeadNight : Game :=
  { players := [
      { id := 0, name := "Dead", role := .Citizen, alignment := .good, alive := false, socketId := some 7 },
      { id := 1, name := "A", role := .Citizen, alignment := .good, alive := true } ],
    state := .NIGHT, round := 1, nightActions := [], votes := [], winner := none, logs := [],
    jailedPlayerId := none, jailorId := none, jailorPendingDeath := false,
    framedPlayers := [], revealRole := false }

/-- The dead citizen of wDeadNight. -/
def wDeadNightP : Player :=
  { id := 0, name := "Dead", role := .Citizen, alignment := .good, alive := false, socketId := some 7 }

/-- Counterexample for C6 as stated: a dead Citizen submits INVESTIGATE
and the ledger gains the entry, so submissions from dead or incapable
actors are not rejected. -/
theorem night_validation_counterexample :
    findBySocket wDeadNight 7 = some wDeadNightP ∧ wDeadNightP.alive = false ∧
    wDeadNightP.role = .Citizen ∧ wDeadNight.state = .NIGHT ∧
    wDeadNight.nightActions = [] ∧
    (nightAction wDeadNight 7 ⟨.INVESTIGATE, some 1, false⟩).1.nightActions
      = [(.main 0, ⟨.INVESTIGATE, 0, some 1⟩)] := by
  refine ⟨by decide, by decide, by decide, by decide, by decide, by decide⟩

/-- Witness for C6 (amended): a Doctor with zero heals left has a HEAL
submission rejected with a private notice and no state change. -/
theorem night_validation_witness :
    findBySocket wVote5Night 9 = some wVote5Doctor ∧ wVote5Doctor.role = .Doctor ∧
    wVote5Doctor.healsRemaining = 0 ∧
    nightAction wVote5Night 9 ⟨.HEAL, some 0, false⟩
      = (wVote5Night, [(wVote5Doctor.id, .noHealsRemaining)]) :=
  ⟨by decide, by decide, by decide,
   (night_validation wVote5Night 9 ⟨.HEAL, some 0, false⟩ wVote5Doctor 0
      (by decide) (by decide) (by decide) (by decide)).2.1
     (by decide) (by decide) (by decide)⟩

/-- applyHeals changes no field but the heal counter. -/
theorem applyHeals_fields (p : Player) (n : Nat) :
    (applyHeals p n).id = p.id ∧ (applyHeals p n).role = p.role ∧
    (applyHeals p n).alignment = p.alignment ∧ (applyHeals p n).alive = p.alive ∧
    (applyHeals p n).isTurned = p.isTurned := by
  unfold applyHeals
  split_ifs <;> exact ⟨rfl, rfl, rfl, rfl, rfl⟩

/-- Heal consumption changes nobody's role, alignment or turned flag. -/
theorem roleOf_consumeHeals (ps : List Player) (hs : List (Nat × Option Nat)) (pid : Nat) :
    roleOf (consumeHeals ps hs) pid = roleOf ps pid := by
  unfold roleOf
  rw [consumeHeals_find]
  cases ps.find? (fun q => q.id == pid) with
  | none => rfl
  | some p =>
    show some ((applyHeals p _).role, (applyHeals p _).alignment, (applyHeals p _).isTurned) = _
    rw [(applyHeals_fields p _).2.1, (applyHeals_fields p _).2.2.1, (applyHeals_fields p _).2.2.2.2]
    rfl

/-- The jailor-execution step changes nobody's role, alignment or turned
flag. -/
theorem roleOf_jailExecuteStep (g : Game) (pid : Nat) :
    roleOf (jailExecuteStep g).players pid = roleOf g.players pid := by
  unfold jailExecuteStep
  repeat' split
  all_goals simp only [roleOf]
  all_goals try rfl
  all_goals try split_ifs
  all_goals try rfl
  all_goals exact find_map_updateFirst _ _ _ _ _ (fun q => rfl) (fun q => rfl)

/-- The day-discussion transition changes nobody's role, alignment or
turned flag. -/
theorem roleOf_startDayDiscuss (g : Game) (pid : Nat) :
    roleOf (startDayDiscuss g).players pid = roleOf g.players pid := by
  unfold startDayDiscuss
  dsimp only
  repeat' split
  all_goals simp only [roleOf]
  all_goals try rfl
  all_goals try split_ifs
  all_goals try rfl
  all_goals exact find_map_updateFirst _ _ _ _ _ (fun q => rfl) (fun q => rfl)

/-- Heal consumption preserves the whole id-role-alignment-turned view of
the roster. -/
theorem roleView_consumeHeals (ps : List Player) (hs : List (Nat × Option Nat)) :
    roleView (consumeHeals ps hs) = roleView ps := by
  induction hs generalizing ps with
  | nil => rfl
  | cons h t ih =>
    show roleView (consumeHeals (updateFirst ps h.1 _) t) = _
    rw [ih]
    exact updateFirst_map _ _ _ _ (fun q => by split_ifs <;> rfl)

/-- The jailor-execution step preserves the id-role-alignment-turned
view. -/
theorem roleView_jailExecuteStep (g : Game) :
    roleView (jailExecuteStep g).players = roleView g.players := by
  unfold jailExecuteStep
  repeat' split
  all_goals simp only [roleView]
  all_goals try rfl
  all_goals try split_ifs
  all_goals try rfl
  all_goals exact updateFirst_map _ _ _ _ (fun q => rfl)

/-- The day-discussion transition preserves the id-role-alignment-turned
view. -/
theorem roleView_startDayDiscuss (g : Game) :
    roleView (startDayDiscuss g).players = roleView g.players := by
  unfold startDayDiscuss
  dsimp only
  repeat' split
  all_goals simp only [roleView]
  all_goals try rfl
  all_goals try split_ifs
  all_goals try rfl
  all_goals exact updateFirst_map _ _ _ _ (fun q => rfl)

/-- On an odd round the vampire-turn step is the identity. -/
theorem vampireTurnStep_odd (g : Game) (pick : Nat) (h : g.round % 2 ≠ 0) :
    vampireTurnStep g pick = g := by
  unfold vampireTurnStep
  rw [if_neg h]

/-- With no BITE entry the chosen bite target is none. -/
theorem chosenBiteTarget_of_no_bites (l : Ledger) (pick : Nat)
    (h : biteActions l = []) : chosenBiteTarget l pick = none := by
  unfold chosenBiteTarget topBiteTargets biteVoteCounts
  rw [h]
  rfl

/-- Every bite-vote tally entry has a positive count. -/
theorem bumpCount_pos (acc : List (Option Nat × Nat)) (t : Option Nat)
    (h : ∀ e ∈ acc, 1 ≤ e.2) : ∀ e ∈ bumpCount acc t, 1 ≤ e.2 := by
  induction acc with
  | nil =>
    intro e he
    rw [show bumpCount [] t = [(t, 1)] from rfl] at he
    have he' := List.mem_singleton.mp he
    subst he'
    exact Nat.le_refl 1
  | cons a rest ih =>
    intro e he
    unfold bumpCount at he
    split_ifs at he with ha
    · rcases List.mem_cons.mp he with he | he
      · rw [he]
        have := h a (List.mem_cons_self a rest)
        omega
      · exact h e (List.mem_cons_of_mem a he)
    · rcases List.mem_cons.mp he with he | he
      · rw [he]
        exact h a (List.mem_cons_self a rest)
      · exact ih (fun x hx => h x (List.mem_cons_of_mem a hx)) e he

/-- Bumping a tally never empties it. -/
theorem bumpCount_ne_nil (acc : List (Option Nat × Nat)) (t : Option Nat) :
    bumpCount acc t ≠ [] := by
  cases acc with
  | nil => simp [bumpCount]
  | cons a rest =>
    unfold bumpCount
    split_ifs <;> simp

/-- Positivity of every count survives the whole tally fold. -/
theorem foldl_bump_pos (acts : List Action) (acc : List (Option Nat × Nat))
    (h : ∀ e ∈ acc, 1 ≤ e.2) :
    ∀ e ∈ acts.foldl (fun a x => bumpCount a x.targetId) acc, 1 ≤ e.2 := by
  induction acts generalizing acc with
  | nil => exact h
  | cons x rest ih => exact ih (bumpCount acc x.targetId) (bumpCount_pos acc x.targetId h)

/-- A nonempty accumulator survives the tally fold. -/
theorem foldl_bump_ne_nil (acts : List Action) (acc : List (Option Nat × Nat))
    (h : acc ≠ []) :
    acts.foldl (fun a x => bumpCount a x.targetId) acc ≠ [] := by
  induction acts generalizing acc with
  | nil => exact h
  | cons x rest ih => exact ih (bumpCount acc x.targetId) (bumpCount_ne_nil acc x.targetId)

/-- The fold seed is a lower bound of the running maximum. -/
theorem le_foldl_max (l : List (Option Nat × Nat)) (a : Nat) :
    a ≤ l.foldl (fun m e => max m e.2) a := by
  induction l generalizing a with
  | nil => exact Nat.le_refl a
  | cons x rest ih => exact Nat.le_trans (Nat.le_max_left a x.2) (ih (max a x.2))

/-- Every entry is bounded by the running maximum. -/
theorem foldl_max_ge (l : List (Option Nat × Nat)) (a : Nat) :
    ∀ e ∈ l, e.2 ≤ l.foldl (fun m e => max m e.2) a := by
  induction l generalizing a with
  | nil => intro e he; cases he
  | cons x rest ih =>
    intro e he
    rcases List.mem_cons.mp he with he | he
    · rw [he]
      exact Nat.le_trans (Nat.le_max_right a x.2) (le_foldl_max rest (max a x.2))
    · exact ih (max a x.2) e he

/-- The running maximum is the seed or an entry's count. -/
theorem foldl_max_attained (l : List (Option Nat × Nat)) (a : Nat) :
    l.foldl (fun m e => max m e.2) a = a ∨
    ∃ e ∈ l, l.foldl (fun m e => max m e.2) a = e.2 := by
  induction l generalizing a with
  | nil => exact Or.inl rfl
  | cons x rest ih =>
    rcases ih (max a x.2) with h | ⟨e, he, hv⟩
    · rcases max_choice a x.2 with hm | hm
      · exact Or.inl (by rw [List.foldl_cons, h, hm])
      · exact Or.inr ⟨x, List.mem_cons_self x rest, by rw [List.foldl_cons, h, hm]⟩
    · exact Or.inr ⟨e, List.mem_cons_of_mem x he, by rw [List.foldl_cons, hv]⟩

/-- Every bite-vote count is positive. -/
theorem biteVoteCounts_pos (l : Ledger) : ∀ e ∈ biteVoteCounts l, 1 ≤ e.2 :=
  foldl_bump_pos (biteActions l) [] (fun e he => absurd he (List.not_mem_nil e))

/-- With at least one BITE entry the tally is nonempty. -/
theorem biteVoteCounts_ne_nil (l : Ledger) (h : biteActions l ≠ []) :
    biteVoteCounts l ≠ [] := by
  unfold biteVoteCounts
  cases hb : biteActions l with
  | nil => exact absurd hb h
  | cons a rest =>
    show (a :: rest).foldl (fun acc x => bumpCount acc x.targetId) [] ≠ []
    rw [List.foldl_cons]
    exact foldl_bump_ne_nil rest (bumpCount [] a.targetId) (bumpCount_ne_nil [] a.targetId)

/-- The maximum bite-vote count is attained by some tally entry. -/
theorem maxBiteVotes_attained (l : Ledger) (h : biteActions l ≠ []) :
    ∃ e ∈ biteVoteCounts l, e.2 = maxBiteVotes l := by
  rcases foldl_max_attained (biteVoteCounts l) 0 with h0 | ⟨e, he, hv⟩
  · exfalso
    cases hc : biteVoteCounts l with
    | nil => exact biteVoteCounts_ne_nil l h hc
    | cons e rest =>
      have h1 : 1 ≤ e.2 := biteVoteCounts_pos l e (by rw [hc]; exact List.mem_cons_self e rest)
      have h2 : e.2 ≤ maxBiteVotes l :=
        foldl_max_ge (biteVoteCounts l) 0 e (by rw [hc]; exact List.mem_cons_self e rest)
      have h3 : maxBiteVotes l = 0 := h0
      omega
  · exact ⟨e, he, hv.symm⟩

/-- With at least one BITE entry the max-vote target set is nonempty. -/
theorem topBiteTargets_ne_nil (l : Ledger) (h : biteActions l ≠ []) :
    topBiteTargets l ≠ [] := by
  rcases maxBiteVotes_attained l h with ⟨e, he, hv⟩
  unfold topBiteTargets
  intro hnil
  have hmem : e ∈ (biteVoteCounts l).filter (fun x => x.2 == maxBiteVotes l) :=
    List.mem_filter.mpr ⟨he, by simp [hv]⟩
  have : e.1 ∈ ((biteVoteCounts l).filter (fun x => x.2 == maxBiteVotes l)).map (fun x => x.1) :=
    List.mem_map_of_mem (fun x => x.1) hmem
  rw [hnil] at this
  exact absurd this (List.not_mem_nil e.1)

/-- The tie-break choice lands inside the max-vote target set. -/
theorem chosen_mem_top (l : Ledger) (pick : Nat) (h : biteActions l ≠ []) :
    chosenBiteTarget l pick ∈ topBiteTargets l := by
  have hne := topBiteTargets_ne_nil l h
  have hlen : 0 < (topBiteTargets l).length := List.length_pos.mpr hne
  have hlt : pick % (topBiteTargets l).length < (topBiteTargets l).length :=
    Nat.mod_lt pick hlen
  unfold chosenBiteTarget
  cases hg : (topBiteTargets l).get? (pick % (topBiteTargets l).length) with
  | none =>
    rw [List.get?_eq_none] at hg
    omega
  | some x =>
    have hx : x ∈ topBiteTargets l := List.get?_mem hg
    simpa using hx

/-- The chosen target's tally entry holds the maximum count. -/
theorem chosen_count_max (l : Ledger) (pick : Nat) (h : biteActions l ≠ []) :
    ∃ e ∈ biteVoteCounts l, e.1 = chosenBiteTarget l pick ∧ e.2 = maxBiteVotes l := by
  have hmem := chosen_mem_top l pick h
  unfold topBiteTargets at hmem
  rcases List.mem_map.mp hmem with ⟨e, hef, hfe⟩
  have hec := List.mem_filter.mp hef
  exact ⟨e, hec.1, hfe, by simpa using hec.2⟩

/-- Evaluation of the vampire-turn step in the successful-turn case. -/
theorem vampireTurnStep_turn (g : Game) (pick : Nat) (tid : Nat) (target : Player)
    (heven : g.round % 2 = 0)
    (hc : chosenBiteTarget g.nightActions pick = some tid)
    (hf : findPlayer g tid = some target)
    (halive : target.alive = true)
    (hnv : isVampireRole target.role = false)
    (hjail : g.jailedPlayerId ≠ some tid)
    (hheal : (doctorHealsOf g.nightActions).any (fun h => h.2 == some tid) = false) :
    vampireTurnStep g pick =
      { g with players := updateFirst g.players tid
                 (fun p => { p with role := .Vampire, alignment := .evil, isTurned := true }),
               logs := g.logs ++ [darkRitualLog g.round] } := by
  have hbne : biteActions g.nightActions ≠ [] := by
    intro hb
    rw [chosenBiteTarget_of_no_bites _ _ hb] at hc
    cases hc
  unfold vampireTurnStep
  rw [if_pos heven, if_pos (List.length_pos.mpr hbne), hc]
  simp only
  rw [hf]
  simp only
  rw [if_pos ⟨halive, by simp [hnv]⟩]
  rw [if_neg hjail, if_neg (by simp [hheal])]

/-- Evaluation of the vampire-turn step when an exception blocks the
turn: an evil-role, dead, jailed or healed chosen target leaves the
roster untouched. -/
theorem vampireTurnStep_noturn (g : Game) (pick : Nat) (tid : Nat) (target : Player)
    (hc : chosenBiteTarget g.nightActions pick = some tid)
    (hf : findPlayer g tid = some target)
    (hex : isVampireRole target.role = true ∨ target.alive = false ∨
           g.jailedPlayerId = some tid ∨
           (doctorHealsOf g.nightActions).any (fun h => h.2 == some tid) = true) :
    (vampireTurnStep g pick).players = g.players := by
  unfold vampireTurnStep
  by_cases h1 : g.round % 2 = 0
  · rw [if_pos h1]
    by_cases h2 : (biteActions g.nightActions).length > 0
    · rw [if_pos h2, hc]
      simp only
      rw [hf]
      simp only
      by_cases h3 : (target.alive = true ∧ ¬ isVampireRole target.role = true)
      · rw [if_pos h3]
        rcases hex with hv | hd | hj | hh
        · exact absurd hv h3.2
        · rw [h3.1] at hd
          cases hd
        · rw [if_pos hj]
        · by_cases hj2 : g.jailedPlayerId = some tid
          · rw [if_pos hj2]
          · rw [if_neg hj2, if_pos hh]
      · rw [if_neg h3]
    · rw [if_neg h2]
  · rw [if_neg h1]

/-- roleOf is untouched by the framing step. -/
theorem roleOf_frameStep (g : Game) (pid : Nat) :
    roleOf (frameStep g).players pid = roleOf g.players pid := by
  rw [players_frameStep]

/-- roleOf after the whole night resolution equals roleOf right after the
vampire-turn step. -/
theorem roleOf_resolveNight (g : Game) (pick : Nat) (pid : Nat) :
    roleOf (resolveNight g pick).players pid
      = roleOf (vampireTurnStep (afterHeals g) pick).players pid := by
  unfold resolveNight
  dsimp only
  split_ifs
  · rw [roleOf_startDayDiscuss, players_checkWin]
    unfold nightEffects
    rw [roleOf_jailExecuteStep, roleOf_frameStep]
  · rw [players_checkWin]
    unfold nightEffects
    rw [roleOf_jailExecuteStep, roleOf_frameStep]

/-- List.contains agrees with membership for pool entries. -/
theorem pool_contains_iff_mem (s : List PoolRole) (a : PoolRole) :
    s.contains a = true ↔ a ∈ s := by
  induction s with
  | nil => simp
  | cons b t ih =>
    rw [List.contains_cons, Bool.or_eq_true, beq_iff_eq, ih, List.mem_cons]

/-- Removing a nodup sublist s from a nodup list l leaves exactly
l.length - s.length elements. -/
theorem length_filter_not_mem (l s : List PoolRole) (hl : l.Nodup) (hs : s.Nodup)
    (hsub : ∀ x ∈ s, x ∈ l) :
    (l.filter (fun r => !(s.contains r))).length = l.length - s.length := by
  have hperm : (l.filter (fun r => s.contains r)).Perm s := by
    rw [List.perm_ext_iff_of_nodup (hl.filter _) hs]
    intro a
    constructor
    · intro ha
      exact (pool_contains_iff_mem s a).mp (List.mem_filter.mp ha).2
    · intro ha
      exact List.mem_filter.mpr ⟨hsub a ha, (pool_contains_iff_mem s a).mpr ha⟩
  have hlen : (l.filter (fun r => s.contains r)).length = s.length := hperm.length_eq
  have hsplit := (List.filter_append_perm (fun r => s.contains r) l).length_eq
  rw [List.length_append] at hsplit
  omega

/-- The three alignment classes partition the pool. -/
theorem align_partition (pool : List PoolRole) :
    (evilRolesOf pool).length + (goodRolesOf pool).length + (neutralRolesOf pool).length
      = pool.length := by
  unfold evilRolesOf goodRolesOf neutralRolesOf
  induction pool with
  | nil => rfl
  | cons r rest ih =>
    rw [List.filter_cons, List.filter_cons, List.filter_cons]
    cases h : poolAlign r
    · rw [if_neg (show ¬ ((Alignment.good == Alignment.evil) = true) from by decide),
          if_pos (show (Alignment.good == Alignment.good) = true from rfl),
          if_neg (show ¬ ((Alignment.good == Alignment.neutral) = true) from by decide)]
      simp only [List.length_cons]
      omega
    · rw [if_pos (show (Alignment.evil == Alignment.evil) = true from rfl),
          if_neg (show ¬ ((Alignment.evil == Alignment.good) = true) from by decide),
          if_neg (show ¬ ((Alignment.evil == Alignment.neutral) = true) from by decide)]
      simp only [List.length_cons]
      omega
    · rw [if_neg (show ¬ ((Alignment.neutral == Alignment.evil) = true) from by decide),
          if_neg (show ¬ ((Alignment.neutral == Alignment.good) = true) from by decide),
          if_pos (show (Alignment.neutral == Alignment.neutral) = true from rfl)]
      simp only [List.length_cons]
      omega

/-- Bool-valued filters commute. -/
theorem filter_comm_bool {α : Type} (l : List α) (p q : α → Bool) :
    (l.filter p).filter q = (l.filter q).filter p := by
  induction l with
  | nil => rfl
  | cons a t ih =>
    by_cases hp : p a = true <;> by_cases hq : q a = true <;>
      simp [List.filter_cons, hp, hq, ih]

/-- A false contains means non-membership. -/
theorem pool_contains_eq_false_iff (s : List PoolRole) (a : PoolRole) :
    s.contains a = false ↔ a ∉ s := by
  rw [← pool_contains_iff_mem]
  cases s.contains a <;> simp

/-- Members of the evil class carry the evil alignment. -/
theorem mem_evilRoles_align (pool : List PoolRole) :
    ∀ x ∈ evilRolesOf pool, poolAlign x = .evil := by
  intro x hx
  simpa using (List.mem_filter.mp hx).2

/-- Members of the good class carry the good alignment. -/
theorem mem_goodRoles_align (pool : List PoolRole) :
    ∀ x ∈ goodRolesOf pool, poolAlign x = .good := by
  intro x hx
  simpa using (List.mem_filter.mp hx).2

/-- Members of the neutral class carry the neutral alignment. -/
theorem mem_neutralRoles_align (pool : List PoolRole) :
    ∀ x ∈ neutralRolesOf pool, poolAlign x = .neutral := by
  intro x hx
  simpa using (List.mem_filter.mp hx).2

/-- A take of a shuffle stays within the shuffled list. -/
theorem take_shuf_sub {shuf : List PoolRole → List PoolRole}
    (hshuf : ∀ l, (shuf l).Perm l) (X : List PoolRole) (k : Nat) :
    ∀ x ∈ (shuf X).take k, x ∈ X := by
  intro x hx
  exact ((hshuf X).mem_iff).mp (List.take_subset _ _ hx)

/-- A take of a shuffle of a nodup list is nodup. -/
theorem take_shuf_nodup {shuf : List PoolRole → List PoolRole}
    (hshuf : ∀ l, (shuf l).Perm l) (X : List PoolRole) (hX : X.Nodup) (k : Nat) :
    ((shuf X).take k).Nodup :=
  List.Nodup.sublist (List.take_sublist _ _) ((hshuf X).symm.nodup hX)

/-- A take of a shuffle has exactly the requested length when it fits. -/
theorem take_shuf_length {shuf : List PoolRole → List PoolRole}
    (hshuf : ∀ l, (shuf l).Perm l) (X : List PoolRole) (k : Nat) (hk : k ≤ X.length) :
    ((shuf X).take k).length = k := by
  rw [List.length_take, (hshuf X).length_eq]
  omega

/-- C8: trimming an over-provisioned explicit pool yields exactly
player-count roles and, whenever the request leaves it possible (at
least one evil requested, a good majority requested, and the player
count can hold one evil plus the majority), the result keeps at least
one evil role and at least the good-majority floor of good roles; the
exact class counts equal the staged removals, evil first down to one,
then neutral, then good down to the floor. -/
theorem role_pool_trimming (pool : List PoolRole) (total : Nat)
    (shuf : List PoolRole → List PoolRole)
    (hnd : pool.Nodup) (hshuf : ∀ l, (shuf l).Perm l)
    (hover : total < pool.length)
    (hevil : 1 ≤ (evilRolesOf pool).length)
    (hgood : minGoodFor total ≤ (goodRolesOf pool).length)
    (hposs : minGoodFor total + 1 ≤ total) :
    (smartExclusion pool total shuf).length = total ∧
    1 ≤ ((smartExclusion pool total shuf).filter (fun r => poolAlign r == .evil)).length ∧
    minGoodFor total
      ≤ ((smartExclusion pool total shuf).filter (fun r => poolAlign r == .good)).length ∧
    ((smartExclusion pool total shuf).filter (fun r => poolAlign r == .evil)).length
      = (evilRolesOf pool).length - evilToRemoveOf pool total ∧
    ((smartExclusion pool total shuf).filter (fun r => poolAlign r == .good)).length
      = (goodRolesOf pool).length - goodToRemoveOf pool total := by
  have hpart := align_partition pool
  have hkE : evilToRemoveOf pool total ≤ (evilRolesOf pool).length := by
    unfold evilToRemoveOf
    omega
  have hkN : neutralToRemoveOf pool total ≤ (neutralRolesOf pool).length := by
    unfold neutralToRemoveOf
    omega
  have hkG : goodToRemoveOf pool total ≤ (goodRolesOf pool).length := by
    unfold goodToRemoveOf
    omega
  have hrem3 : remaining3Of pool total = 0 := by
    unfold remaining3Of goodToRemoveOf remaining2Of neutralToRemoveOf remaining1Of
      evilToRemoveOf excessOf
    omega
  have hex4 : ex4Of pool total shuf = ex3Of pool total shuf := by
    unfold ex4Of
    rw [hrem3]
    simp
  have hsm : smartExclusion pool total shuf
      = pool.filter (fun r => !((ex3Of pool total shuf).contains r)) := by
    unfold smartExclusion
    rw [if_neg (by omega), hex4]
  have hEnd : (evilRolesOf pool).Nodup := hnd.filter _
  have hGnd : (goodRolesOf pool).Nodup := hnd.filter _
  have hNnd : (neutralRolesOf pool).Nodup := hnd.filter _
  have htEnd : (takeEvilOf pool total shuf).Nodup := take_shuf_nodup hshuf _ hEnd _
  have htNnd : (takeNeutralOf pool total shuf).Nodup := take_shuf_nodup hshuf _ hNnd _
  have htGnd : (takeGoodOf pool total shuf).Nodup := take_shuf_nodup hshuf _ hGnd _
  have htEsub : ∀ x ∈ takeEvilOf pool total shuf, x ∈ evilRolesOf pool :=
    take_shuf_sub hshuf _ _
  have htNsub : ∀ x ∈ takeNeutralOf pool total shuf, x ∈ neutralRolesOf pool :=
    take_shuf_sub hshuf _ _
  have htGsub : ∀ x ∈ takeGoodOf pool total shuf, x ∈ goodRolesOf pool :=
    take_shuf_sub hshuf _ _
  have htElen : (takeEvilOf pool total shuf).length = evilToRemoveOf pool total :=
    take_shuf_length hshuf _ _ hkE
  have htNlen : (takeNeutralOf pool total shuf).length = neutralToRemoveOf pool total :=
    take_shuf_length hshuf _ _ hkN
  have htGlen : (takeGoodOf pool total shuf).length = goodToRemoveOf pool total :=
    take_shuf_length hshuf _ _ hkG
  have hd1 : List.Disjoint (takeEvilOf pool total shuf) (takeNeutralOf pool total shuf) := by
    intro a haE haN
    have h1 := mem_evilRoles_align pool a (htEsub a haE)
    have h2 := mem_neutralRoles_align pool a (htNsub a haN)
    rw [h1] at h2
    exact Alignment.noConfusion h2
  have hd2 : List.Disjoint (takeEvilOf pool total shuf ++ takeNeutralOf pool total shuf)
      (takeGoodOf pool total shuf) := by
    intro a ha haG
    have h2 := mem_goodRoles_align pool a (htGsub a haG)
    rcases List.mem_append.mp ha with h | h
    · have h1 := mem_evilRoles_align pool a (htEsub a h)
      rw [h1] at h2
      exact Alignment.noConfusion h2
    · have h1 := mem_neutralRoles_align pool a (htNsub a h)
      rw [h1] at h2
      exact Alignment.noConfusion h2
  have hex3nd : (ex3Of pool total shuf).Nodup :=
    (htEnd.append htNnd hd1).append htGnd hd2
  have hex3sub : ∀ x ∈ ex3Of pool total shuf, x ∈ pool := by
    intro x hx
    rcases List.mem_append.mp hx with h | h
    · rcases List.mem_append.mp h with h | h
      · exact List.mem_of_mem_filter (htEsub x h)
      · exact List.mem_of_mem_filter (htNsub x h)
    · exact List.mem_of_mem_filter (htGsub x h)
  have hex3len : (ex3Of pool total shuf).length
      = evilToRemoveOf pool total + neutralToRemoveOf pool total + goodToRemoveOf pool total := by
    unfold ex3Of
    rw [List.length_append, List.length_append, htElen, htNlen, htGlen]
  have hsum : evilToRemoveOf pool total + neutralToRemoveOf pool total
      + goodToRemoveOf pool total = excessOf pool total := by
    have h3 := hrem3
    unfold remaining3Of goodToRemoveOf remaining2Of neutralToRemoveOf remaining1Of
      evilToRemoveOf excessOf at h3
    unfold goodToRemoveOf remaining2Of neutralToRemoveOf remaining1Of evilToRemoveOf excessOf
    omega
  have hlen : (smartExclusion pool total shuf).length = total := by
    rw [hsm, length_filter_not_mem pool _ hnd hex3nd hex3sub, hex3len, hsum]
    unfold excessOf
    omega
  have hevilfilter : (smartExclusion pool total shuf).filter (fun r => poolAlign r == .evil)
      = (evilRolesOf pool).filter (fun r => !((takeEvilOf pool total shuf).contains r)) := by
    rw [hsm, filter_comm_bool]
    show (evilRolesOf pool).filter (fun r => !((ex3Of pool total shuf).contains r)) = _
    apply List.filter_congr
    intro x hx
    have hax := mem_evilRoles_align pool x hx
    by_cases hmem : x ∈ takeEvilOf pool total shuf
    · have hmemEx3 : x ∈ ex3Of pool total shuf := by
        unfold ex3Of
        exact List.mem_append.mpr (Or.inl (List.mem_append.mpr (Or.inl hmem)))
      rw [(pool_contains_iff_mem _ _).mpr hmemEx3, (pool_contains_iff_mem _ _).mpr hmem]
    · have hnotex3 : x ∉ ex3Of pool total shuf := by
        unfold ex3Of
        intro hin
        rcases List.mem_append.mp hin with h | h
        · rcases List.mem_append.mp h with h | h
          · exact hmem h
          · have h2 := mem_neutralRoles_align pool x (htNsub x h)
            rw [hax] at h2
            exact Alignment.noConfusion h2
        · have h2 := mem_goodRoles_align pool x (htGsub x h)
          rw [hax] at h2
          exact Alignment.noConfusion h2
      rw [(pool_contains_eq_false_iff _ _).mpr hnotex3, (pool_contains_eq_false_iff _ _).mpr hmem]
  have hgoodfilter : (smartExclusion pool total shuf).filter (fun r => poolAlign r == .good)
      = (goodRolesOf pool).filter (fun r => !((takeGoodOf pool total shuf).contains r)) := by
    rw [hsm, filter_comm_bool]
    show (goodRolesOf pool).filter (fun r => !((ex3Of pool total shuf).contains r)) = _
    apply List.filter_congr
    intro x hx
    have hax := mem_goodRoles_align pool x hx
    by_cases hmem : x ∈ takeGoodOf pool total shuf
    · have hmemEx3 : x ∈ ex3Of pool total shuf := by
        unfold ex3Of
        exact List.mem_append.mpr (Or.inr hmem)
      rw [(pool_contains_iff_mem _ _).mpr hmemEx3, (pool_contains_iff_mem _ _).mpr hmem]
    · have hnotex3 : x ∉ ex3Of pool total shuf := by
        unfold ex3Of
        intro hin
        rcases List.mem_append.mp hin with h | h
        · rcases List.mem_append.mp h with h | h
          · have h2 := mem_evilRoles_align pool x (htEsub x h)
            rw [hax] at h2
            exact Alignment.noConfusion h2
          · have h2 := mem_neutralRoles_align pool x (htNsub x h)
            rw [hax] at h2
            exact Alignment.noConfusion h2
        · exact hmem h
      rw [(pool_contains_eq_false_iff _ _).mpr hnotex3, (pool_contains_eq_false_iff _ _).mpr hmem]
  have hevilcount : ((smartExclusion pool total shuf).filter
        (fun r => poolAlign r == .evil)).length
      = (evilRolesOf pool).length - evilToRemoveOf pool total := by
    rw [hevilfilter, length_filter_not_mem _ _ hEnd htEnd htEsub, htElen]
  have hgoodcount : ((smartExclusion pool total shuf).filter
        (fun r => poolAlign r == .good)).length
      = (goodRolesOf pool).length - goodToRemoveOf pool total := by
    rw [hgoodfilter, length_filter_not_mem _ _ hGnd htGnd htGsub, htGlen]
  refine ⟨hlen, ?_, ?_, hevilcount, hgoodcount⟩
  · rw [hevilcount]
    unfold evilToRemoveOf
    omega
  · rw [hgoodcount]
    unfold goodToRemoveOf
    omega

/-- An explicit requested pool of seven roles: two evil, four good, one
neutral. -/
def wPool : List PoolRole :=
  [⟨0, .Vampire⟩, ⟨1, .VampireFramer⟩, ⟨2, .Doctor⟩, ⟨3, .Investigator⟩,
   ⟨4, .Lookout⟩, ⟨5, .Citizen⟩, ⟨6, .Jester⟩]

/-- Witness for C8: trimming the seven-role pool of wPool to five players
keeps exactly five roles with at least one evil role and the good
majority intact. -/
theorem role_pool_trimming_witness :
    wPool.Nodup ∧ 5 < wPool.length ∧ 1 ≤ (evilRolesOf wPool).length ∧
    minGoodFor 5 ≤ (goodRolesOf wPool).length ∧ minGoodFor 5 + 1 ≤ 5 ∧
    (smartExclusion wPool 5 id).length = 5 ∧
    1 ≤ ((smartExclusion wPool 5 id).filter (fun r => poolAlign r == .evil)).length ∧
    minGoodFor 5 ≤ ((smartExclusion wPool 5 id).filter (fun r => poolAlign r == .good)).length :=
  ⟨by decide, by decide, by decide, by decide, by decide,
   (role_pool_trimming wPool 5 id (by decide) (fun l => List.Perm.refl l)
      (by decide) (by decide) (by decide) (by decide)).1,
   (role_pool_trimming wPool 5 id (by decide) (fun l => List.Perm.refl l)
      (by decide) (by decide) (by decide) (by decide)).2.1,
   (role_pool_trimming wPool 5 id (by decide) (fun l => List.Perm.refl l)
      (by decide) (by decide) (by decide) (by decide)).2.2.1⟩

/-- On an odd round the whole night resolution preserves everyone's id,
role, alignment and turned flag. -/
theorem roleView_resolveNight_odd (g : Game) (pick : Nat) (h : g.round % 2 ≠ 0) :
    roleView (resolveNight g pick).players = roleView g.players := by
  have hv : vampireTurnStep (afterHeals g) pick = afterHeals g :=
    vampireTurnStep_odd (afterHeals g) pick h
  unfold resolveNight
  dsimp only
  split_ifs
  · rw [roleView_startDayDiscuss, players_checkWin]
    unfold nightEffects
    rw [roleView_jailExecuteStep, players_frameStep, hv]
    exact roleView_consumeHeals g.players _
  · rw [players_checkWin]
    unfold nightEffects
    rw [roleView_jailExecuteStep, players_frameStep, hv]
    exact roleView_consumeHeals g.players _

/-- C1 (amended): the vampire turn acts only on even rounds (odd rounds
leave every role, alignment and turned flag as they were); the tie-break
choice always lands on a target holding the maximum bite-vote count; a
chosen target that is alive, not vampire-role, not jailed and not healed
becomes a turned evil Vampire; a chosen target that holds a vampire
role, is dead, is jailed or was healed this round keeps role, alignment
and turned flag unchanged.  The aliveness condition is the amendment:
the claim as frozen omits it. -/
theorem vampire_turn (g : Game) (pick : Nat) :
    (g.round % 2 ≠ 0 → roleView (resolveNight g pick).players = roleView g.players) ∧
    (biteActions g.nightActions ≠ [] →
      chosenBiteTarget g.nightActions pick ∈ topBiteTargets g.nightActions ∧
      (∃ e ∈ biteVoteCounts g.nightActions,
        e.1 = chosenBiteTarget g.nightActions pick ∧ e.2 = maxBiteVotes g.nightActions) ∧
      (∀ e ∈ biteVoteCounts g.nightActions, e.2 ≤ maxBiteVotes g.nightActions)) ∧
    (∀ tid target, g.round % 2 = 0 →
      chosenBiteTarget g.nightActions pick = some tid →
      findPlayer g tid = some target → target.alive = true →
      isVampireRole target.role = false → g.jailedPlayerId ≠ some tid →
      (doctorHealsOf g.nightActions).any (fun h => h.2 == some tid) = false →
      roleOf (resolveNight g pick).players tid = some (.Vampire, .evil, true)) ∧
    (∀ tid target,
      chosenBiteTarget g.nightActions pick = some tid →
      findPlayer g tid = some target →
      (isVampireRole target.role = true ∨ target.alive = false ∨
       g.jailedPlayerId = some tid ∨
       (doctorHealsOf g.nightActions).any (fun h => h.2 == some tid) = true) →
      roleOf (resolveNight g pick).players tid
        = some (target.role, target.alignment, target.isTurned)) := by
  refine ⟨roleView_resolveNight_odd g pick, ?_, ?_, ?_⟩
  · intro hne
    exact ⟨chosen_mem_top _ pick hne, chosen_count_max _ pick hne,
           foldl_max_ge (biteVoteCounts g.nightActions) 0⟩
  · intro tid target heven hc hf halive hnv hjail hheal
    have hf' : findPlayer (afterHeals g) tid
        = some (applyHeals target
            ((List.filter (fun x => x.1 == tid) (doctorHealsOf g.nightActions)).length)) := by
      show (consumeHeals g.players (doctorHealsOf g.nightActions)).find? (fun q => q.id == tid) = _
      rw [consumeHeals_find]
      unfold findPlayer at hf
      rw [hf]
      rfl
    have halive' : (applyHeals target
        ((List.filter (fun x => x.1 == tid) (doctorHealsOf g.nightActions)).length)).alive = true := by
      rw [(applyHeals_fields target _).2.2.2.1]
      exact halive
    have hnv' : isVampireRole (applyHeals target
        ((List.filter (fun x => x.1 == tid) (doctorHealsOf g.nightActions)).length)).role = false := by
      rw [(applyHeals_fields target _).2.1]
      exact hnv
    have ht := vampireTurnStep_turn (afterHeals g) pick tid _ heven hc hf' halive' hnv' hjail hheal
    rw [roleOf_resolveNight, ht]
    show roleOf (updateFirst (afterHeals g).players tid
      (fun p => { p with role := .Vampire, alignment := .evil, isTurned := true })) tid = _
    unfold roleOf
    rw [updateFirst_find_eq (afterHeals g).players tid
          (fun p => { p with role := .Vampire, alignment := .evil, isTurned := true })
          (fun q => rfl)]
    unfold findPlayer at hf'
    rw [hf']
    rfl
  · intro tid target hc hf hex
    have hf' : findPlayer (afterHeals g) tid
        = some (applyHeals target
            ((List.filter (fun x => x.1 == tid) (doctorHealsOf g.nightActions)).length)) := by
      show (consumeHeals g.players (doctorHealsOf g.nightActions)).find? (fun q => q.id == tid) = _
      rw [consumeHeals_find]
      unfold findPlayer at hf
      rw [hf]
      rfl
    have hex' : isVampireRole (applyHeals target
          ((List.filter (fun x => x.1 == tid) (doctorHealsOf g.nightActions)).length)).role = true ∨
        (applyHeals target
          ((List.filter (fun x => x.1 == tid) (doctorHealsOf g.nightActions)).length)).alive = false ∨
        (afterHeals g).jailedPlayerId = some tid ∨
        (doctorHealsOf (afterHeals g).nightActions).any (fun h => h.2 == some tid) = true := by
      rw [(applyHeals_fields target _).2.1, (applyHeals_fields target _).2.2.2.1]
      exact hex
    have hnt := vampireTurnStep_noturn (afterHeals g) pick tid _ hc hf' hex'
    rw [roleOf_resolveNight]
    rw [show roleOf (vampireTurnStep (afterHeals g) pick).players tid
          = roleOf (afterHeals g).players tid from by rw [hnt]]
    rw [show roleOf (afterHeals g).players tid = roleOf g.players tid from
          roleOf_consumeHeals g.players (doctorHealsOf g.nightActions) tid]
    unfold findPlayer at hf
    unfold roleOf
    rw [hf]
    rfl

/-- An even-round night session in which the only bite names a dead
citizen. -/
def wDeadBite : Game :=
  { players := [
      { id := 0, name := "V", role := .Vampire, alignment := .evil, alive := true },
      { id := 1, name := "Cit", role := .Citizen, alignment := .good, alive := false },
      { id := 2, name := "A", role := .Citizen, alignment := .good, alive := true },
      { id := 3, name := "B", role := .Citizen, alignment := .good, alive := true } ],
    state := .NIGHT, round := 2,
    nightActions := [(.main 0, ⟨.BITE, 0, some 1⟩)],
    votes := [], winner := none, logs := [], jailedPlayerId := none, jailorId := none,
    jailorPendingDeath := false, framedPlayers := [], revealRole := false }

/-- Counterexample for C1 as stated: in wDeadBite the chosen target of an
even round is not evil-aligned, not jailed and not healed, yet the
resolution does not turn them, because they are dead. -/
theorem vampire_turn_counterexample :
    wDeadBite.round % 2 = 0 ∧
    chosenBiteTarget wDeadBite.nightActions 0 = some 1 ∧
    (findPlayer wDeadBite 1).map (fun p => p.alignment) = some .good ∧
    wDeadBite.jailedPlayerId ≠ some 1 ∧
    doctorHealsOf wDeadBite.nightActions = [] ∧
    roleOf (resolveNight wDeadBite 0).players 1 = some (.Citizen, .good, false) := by
  refine ⟨by decide, by decide, by decide, by decide, by decide, by decide⟩

/-- An even-round night session in which the vampire bites a living
citizen with no protection. -/
def wTurnNight : Game :=
  { players := [
      { id := 0, name := "V", role := .Vampire, alignment := .evil, alive := true },
      { id := 1, name := "C", role := .Citizen, alignment := .good, alive := true },
      { id := 2, name := "A", role := .Citizen, alignment := .good, alive := true },
      { id := 3, name := "B", role := .Citizen, alignment := .good, alive := true },
      { id := 4, name := "D", role := .Citizen, alignment := .good, alive := true } ],
    state := .NIGHT, round := 2,
    nightActions := [(.main 0, ⟨.BITE, 0, some 1⟩)],
    votes := [], winner := none, logs := [], jailedPlayerId := none, jailorId := none,
    jailorPendingDeath := false, framedPlayers := [], revealRole := false }

/-- The bitten citizen of wTurnNight. -/
def wTurnC : Player :=
  { id := 1, name := "C", role := .Citizen, alignment := .good, alive := true }

/-- Witness for C1 (amended): in wTurnNight the living unprotected chosen
target is turned into an evil Vampire. -/
theorem vampire_turn_witness :
    wTurnNight.round % 2 = 0 ∧ chosenBiteTarget wTurnNight.nightActions 0 = some 1 ∧
    findPlayer wTurnNight 1 = some wTurnC ∧ wTurnC.alive = true ∧
    isVampireRole wTurnC.role = false ∧
    roleOf (resolveNight wTurnNight 0).players 1 = some (.Vampire, .evil, true) :=
  ⟨by decide, by decide, by decide, by decide, by decide,
   (vampire_turn wTurnNight 0).2.2.1 1 wTurnC (by decide) (by decide) (by decide)
     (by decide) (by decide) (by decide) (by decide)⟩

/-- Deleting a ledger key removes it. -/
theorem ledgerGet_del_self (l : Ledger) (k : NightKey) :
    ledgerGet (ledgerDel l k) k = none := by
  have hnone : (List.filter (fun e => !(e.1 == k)) l).find? (fun e => e.1 == k) = none := by
    rw [List.find?_eq_none]
    intro e he
    simpa using (List.mem_filter.mp he).2
  simp [ledgerGet, ledgerDel, hnone]

/-- A filter whose predicate is implied by the search predicate does not
change what find? locates. -/
theorem find?_filter_of_imp {α : Type} (l : List α) (p q : α → Bool)
    (h : ∀ e, p e = true → q e = true) :
    (l.filter q).find? p = l.find? p := by
  induction l with
  | nil => rfl
  | cons e t ih =>
    by_cases hq : q e = true
    · by_cases hp : p e = true
      · simp [List.filter_cons, hq, List.find?_cons, hp]
      · have hp' : p e = false := by
          cases hpe : p e
          · rfl
          · exact absurd hpe hp
        simp [List.filter_cons, hq, List.find?_cons, hp', ih]
    · have hq' : q e = false := by
        cases hqe : q e
        · rfl
        · exact absurd hqe hq
      have hp' : p e = false := by
        cases hpe : p e
        · rfl
        · exact absurd (h e hpe) hq
      simp [List.filter_cons, hq', List.find?_cons, hp', ih]

/-- Deleting one ledger key leaves every other key's entry unchanged. -/
theorem ledgerGet_del_ne (l : Ledger) (k k' : NightKey) (h : k' ≠ k) :
    ledgerGet (ledgerDel l k) k' = ledgerGet l k' := by
  unfold ledgerGet ledgerDel
  rw [find?_filter_of_imp]
  intro e hpe
  have he : e.1 = k' := by simpa using hpe
  simp [he, h]

/-- C5 (amended): a successful JAIL records the jail state and purges the
entry stored under the target's own main key, but the target's separate
frame-key entry survives; and while jailed, a player's non-clear,
non-JAIL submissions leave the ledger unchanged. -/
theorem jail_purge_and_block (g : Game) (sockId : Nat) (act : ActionInput)
    (player target : Player)
    (h1 : findBySocket g sockId = some player) (h2 : g.state = .NIGHT) :
    (act.clear = false → act.type = .JAIL → player.role = .Jailor → player.alive = true →
      findTarget g act.targetId = some target → target.alive = true → target.id ≠ player.id →
      ((nightAction g sockId act).1.jailedPlayerId = some target.id ∧
       (nightAction g sockId act).1.jailorId = some player.id ∧
       ledgerGet (nightAction g sockId act).1.nightActions (.main target.id) = none ∧
       ledgerGet (nightAction g sockId act).1.nightActions (.frame target.id)
         = ledgerGet g.nightActions (.frame target.id))) ∧
    (¬ (act.clear = true ∨ (act.targetId = none ∧ act.type ≠ .EXECUTE)) →
      act.type ≠ .JAIL → g.jailedPlayerId = some player.id → g.jailorId ≠ some player.id →
      (nightAction g sockId act).1.nightActions = g.nightActions) := by
  constructor
  · intro hclear htype hrole halive htgt htal hne
    have hnn : ¬ (act.clear = true ∨ (act.targetId = none ∧ act.type ≠ .EXECUTE)) := by
      rintro (hc | ⟨hn, hx⟩)
      · rw [hclear] at hc
        exact Bool.false_ne_true hc
      · rw [hn] at htgt
        exact absurd htgt (by simp [findTarget])
    unfold nightAction
    rw [h1]
    simp only
    rw [if_neg (by simp [h2]), if_neg hnn,
        if_neg (by simp [htype]),
        if_neg (by simp [htype]),
        if_neg (by simp [htype]),
        if_pos htype]
    rw [if_neg (by simp [hrole]), if_neg (by simp [halive])]
    rw [htgt]
    simp only
    rw [if_neg (by simp [htal]), if_neg hne]
    refine ⟨rfl, rfl, ?_, ?_⟩
    · dsimp only
      split_ifs with hp
      · exact ledgerGet_del_self g.nightActions (.main target.id)
      · simpa using hp
    · dsimp only
      split_ifs with hp
      · exact ledgerGet_del_ne g.nightActions (.main target.id) (.frame target.id) (by simp)
      · rfl
  · intro hnc htype hjailed hnotjailor
    unfold nightAction
    rw [h1]
    simp only
    rw [if_neg (by simp [h2]), if_neg hnc]
    cases hty : act.type
    case JAIL => exact absurd hty htype
    case INVESTIGATE =>
      rw [if_neg (by simp), if_neg (by simp), if_neg (by simp), if_neg (by simp),
          if_neg (by simp), if_neg (by simp), if_pos hjailed]
    case LOOKOUT =>
      rw [if_neg (by simp), if_neg (by simp), if_neg (by simp), if_neg (by simp),
          if_neg (by simp), if_neg (by simp), if_pos hjailed]
    case FRAME =>
      rw [if_neg (by simp), if_neg (by simp), if_neg (by simp), if_neg (by simp),
          if_neg (by simp), if_neg (by simp), if_pos hjailed]
    case BITE =>
      by_cases hb : (findTarget g act.targetId).any (fun t => isVampireRole t.role) = true
      · rw [if_pos ⟨rfl, hb⟩]
      · rw [if_neg (fun hc => hb hc.2), if_neg (by simp), if_neg (by simp), if_neg (by simp),
            if_neg (by simp), if_neg (by simp), if_pos hjailed]
    case HEAL =>
      rw [if_neg (by simp)]
      by_cases hr : player.role = .Doctor
      · rw [if_neg (fun hc => hc.2 hr)]
        by_cases hz : player.healsRemaining = 0
        · rw [if_pos ⟨rfl, hz⟩]
        · rw [if_neg (fun hc => hz hc.2), if_neg (by simp), if_neg (by simp),
              if_neg (by simp), if_pos hjailed]
      · rw [if_pos ⟨rfl, hr⟩]
    case EXECUTE =>
      rw [if_neg (by simp), if_neg (by simp), if_neg (by simp), if_neg (by simp),
          if_pos rfl]
      by_cases hr : player.role = .Jailor
      · rw [if_neg (by simp [hr]), if_pos hnotjailor]
      · rw [if_pos hr]
    case CANCEL_EXECUTE =>
      rw [if_neg (by simp), if_neg (by simp), if_neg (by simp), if_neg (by simp),
          if_neg (by simp), if_pos rfl]
      by_cases hr : player.role = .Jailor
      · rw [if_neg (by simp [hr]), if_pos hnotjailor]
      · rw [if_pos hr]

/-- A night session: Jailor 1 (socket 10), Vampire Framer 2 who has both
a BITE vote under the main key and a FRAME under the frame key, and
Citizen 3. -/
def wFramerJail : Game :=
  { players := [
      { id := 1, name := "J", role := .Jailor, alignment := .good, alive := true, socketId := some 10 },
      { id := 2, name := "F", role := .VampireFramer, alignment := .evil, alive := true, socketId := some 20 },
      { id := 3, name := "C", role := .Citizen, alignment := .good, alive := true } ],
    state := .NIGHT, round := 1,
    nightActions := [(.main 2, ⟨.BITE, 2, some 3⟩), (.frame 2, ⟨.FRAME, 2, some 3⟩)],
    votes := [], winner := none, logs := [], jailedPlayerId := none, jailorId := none,
    jailorPendingDeath := false, framedPlayers := [], revealRole := false }

/-- The Jailor of wFramerJail. -/
def wFramerJailJ : Player :=
  { id := 1, name := "J", role := .Jailor, alignment := .good, alive := true, socketId := some 10 }

/-- The Vampire Framer of wFramerJail. -/
def wFramerJailF : Player :=
  { id := 2, name := "F", role := .VampireFramer, alignment := .evil, alive := true, socketId := some 20 }

/-- The session of wFramerJail right after the framer was jailed. -/
def wPostJail : Game :=
  { wFramerJail with nightActions := [(.frame 2, ⟨.FRAME, 2, some 3⟩)],
                     jailedPlayerId := some 2, jailorId := some 1 }

/-- Counterexample for C5 as stated: after the Jailor jails the Vampire
Framer, the framer's pre-jail FRAME entry is still in the ledger and the
night resolution counts it, marking the framer's target framed, although
the jailed player's BITE entry was purged. -/
theorem jail_purge_counterexample :
    (nightAction wFramerJail 10 ⟨.JAIL, some 2, false⟩).1.jailedPlayerId = some 2 ∧
    ledgerGet (nightAction wFramerJail 10 ⟨.JAIL, some 2, false⟩).1.nightActions (.main 2) = none ∧
    ledgerGet (nightAction wFramerJail 10 ⟨.JAIL, some 2, false⟩).1.nightActions (.frame 2)
      = some ⟨.FRAME, 2, some 3⟩ ∧
    (resolveNight (nightAction wFramerJail 10 ⟨.JAIL, some 2, false⟩).1 0).framedPlayers
      = [some 3] := by
  refine ⟨by decide, by decide, by decide, by decide⟩

/-- Witness for C5 (amended): jailing the framer of wFramerJail records
the jail, purges the main-key BITE, and leaves the frame-key entry as it
was; afterwards a BITE submission by the jailed framer leaves the ledger
unchanged. -/
theorem jail_purge_and_block_witness :
    ((nightAction wFramerJail 10 ⟨.JAIL, some 2, false⟩).1.jailedPlayerId = some 2 ∧
     (nightAction wFramerJail 10 ⟨.JAIL, some 2, false⟩).1.jailorId = some 1 ∧
     ledgerGet (nightAction wFramerJail 10 ⟨.JAIL, some 2, false⟩).1.nightActions (.main 2) = none ∧
     ledgerGet (nightAction wFramerJail 10 ⟨.JAIL, some 2, false⟩).1.nightActions (.frame 2)
       = ledgerGet wFramerJail.nightActions (.frame 2)) ∧
    (nightAction wPostJail 20 ⟨.BITE, some 1, false⟩).1.nightActions = wPostJail.nightActions :=
  ⟨(jail_purge_and_block wFramerJail 10 ⟨.JAIL, some 2, false⟩ wFramerJailJ wFramerJailF
      (by decide) (by decide)).1 (by decide) (by decide) (by decide) (by decide)
      (by decide) (by decide) (by decide),
   (jail_purge_and_block wPostJail 20 ⟨.BITE, some 1, false⟩ wFramerJailF wFramerJailJ
      (by decide) (by decide)).2 (by decide) (by decide) (by decide) (by decide)⟩

/-- C7: lynching a Jester ends the session at once: the state becomes
GAME_OVER with winner Jester and the resulting session is exactly the
lynch-kill state with the two lynch logs appended, the win-condition
evaluator never running on this path (its state, winner and log writes
are absent). -/
theorem jester_lynch (g : Game) (lid c : Nat) (victim : Player)
    (hl : lynchTarget g = some (some lid, c))
    (hv : findPlayer g lid = some victim)
    (hrole : victim.role = .Jester) :
    resolveVoting g =
      { g with players := updateFirst g.players lid (fun p => { p with alive := false }),
               state := .GAME_OVER,
               winner := some "Jester",
               logs := (g.logs ++ [lynchedLog g.round victim.name]) ++ [jesterWinsLog g.round] } := by
  unfold resolveVoting
  rw [hl]
  simp only
  rw [hv]
  simp only
  rw [if_pos hrole]
  rfl

/-- Witness for C7: in wJester the Jester holds 2 of 3 living votes; the
game ends with winner Jester even though zero evil players live (the
evaluator would have declared GOOD). -/
theorem jester_lynch_witness :
    lynchTarget wJester = some (some 1, 2) ∧ findPlayer wJester 1 = some wJesterP ∧
    wJesterP.role = .Jester ∧ evilLiving wJester = [] ∧
    (resolveVoting wJester).winner = some "Jester" ∧
    (resolveVoting wJester).state = .GAME_OVER := by
  refine ⟨by decide, by decide, by decide, by decide, ?_, ?_⟩
  · rw [jester_lynch wJester 1 2 wJesterP (by decide) (by decide) (by decide)]
  · rw [jester_lynch wJester 1 2 wJesterP (by decide) (by decide) (by decide)]

end Vampires
